import Mathlib

/-!
# Verification of the Xenia SPIR-V builder core (`src/xenia/gpu/spirv_builder.cc`)

Shallow embedding of the shader-IR builder: the `SpirvBuilder` emission
operations (`createQuadOp`, the builtin-call emitters) and the structured-if
helper (`SpirvBuilder::IfBuilder`).  Ids are natural numbers; the single
enclosing function is represented by its ordered list of attached block ids.

The base `spv::Builder` facilities used by the file (`getUniqueId`,
`createBranch`, `createSelectionMerge`, `createSpecConstantOp`,
`addDecoration`, `spv::Block`, `Function::addBlock`) live outside the
translated source; they are modelled from the specification's data model and
are marked `Modelled from the spec:` below.
-/

namespace XeniaSpirv

/-- SPIR-V opcodes that the translated code mentions by name; every other
opcode is carried numerically. -/
inductive SpvOp where
  | OpBranch
  | OpBranchConditional
  | OpSelectionMerge
  | OpExtInst
  | OpPhi
  | otherOp (code : Nat)
deriving DecidableEq, Repr

/-- An instruction operand: an id operand or an immediate (literal) operand. -/
inductive Operand where
  | idOperand (id : Nat)
  | immediate (value : Nat)
deriving DecidableEq, Repr

/-- `spv::Instruction`: opcode, optional result type, optional result id and
an ordered operand list. -/
structure Instruction where
  resultId : Option Nat
  typeId : Option Nat
  opCode : SpvOp
  operands : List Operand
deriving DecidableEq, Repr

/-- Modelled from the spec: `spv::Block` — an id, an ordered instruction
sequence and a predecessor set (kept as a list of block ids in registration
order). -/
structure Block where
  id : Nat
  instructions : List Instruction
  predecessors : List Nat
deriving DecidableEq, Repr

/-- Modelled from the spec: a specialization-constant expression record, as
produced by `createSpecConstantOp` on the constant-folding path — the same
opcode and operands as the suppressed runtime instruction, a fresh result id,
and no block membership. -/
structure SpecConstantRecord where
  resultId : Nat
  typeId : Nat
  opCode : SpvOp
  idOperands : List Nat
  literals : List Nat
deriving DecidableEq, Repr

/-- The emitter state of `SpirvBuilder` for one module-build session:
the unique-id counter, the single build-point cursor (a block id), every
created block (attached or detached), the enclosing function's attached block
order, the `generatingOpCodeForSpecConst` flag, the constant-expression
table, the result-id-to-type table behind `getTypeId`, and the decoration
list behind `addDecoration`. -/
structure SpirvBuilder where
  nextId : Nat
  buildPoint : Nat
  blocks : List Block
  functionBlocks : List Nat
  generatingOpCodeForSpecConst : Bool
  specConstants : List SpecConstantRecord
  types : List (Nat × Nat)
  decorations : List (Nat × Nat)
deriving DecidableEq, Repr

/-- Apply `f` to the block(s) of `blocks` whose id is `bid`. -/
def updateBlock (blocks : List Block) (bid : Nat) (f : Block → Block) : List Block :=
  blocks.map fun blk => if blk.id = bid then f blk else blk

namespace SpirvBuilder

/-- Look a block up by id. -/
def findBlock (b : SpirvBuilder) (bid : Nat) : Option Block :=
  b.blocks.find? fun blk => blk.id == bid

/-- Modelled from the spec: the module-wide unique-id allocator
(`getUniqueId`) — returns a fresh id and advances the counter by one. -/
def getUniqueId (b : SpirvBuilder) : Nat × SpirvBuilder :=
  (b.nextId, { b with nextId := b.nextId + 1 })

/-- Modelled from the spec: `Block::addInstruction` at a given block —
append the instruction to that block's ordered sequence. -/
def addInstructionTo (b : SpirvBuilder) (bid : Nat) (i : Instruction) : SpirvBuilder :=
  { b with
    blocks := updateBlock b.blocks bid fun blk =>
      { blk with instructions := blk.instructions ++ [i] } }

/-- Modelled from the spec: `Block::addPredecessor` — register `pred` as a
predecessor of block `bid`. -/
def addPredecessor (b : SpirvBuilder) (bid pred : Nat) : SpirvBuilder :=
  { b with
    blocks := updateBlock b.blocks bid fun blk =>
      { blk with predecessors := blk.predecessors ++ [pred] } }

/-- Modelled from the spec: `new spv::Block(builder.getUniqueId(), function)`
— create a detached block with a fresh id, empty instruction sequence and no
predecessors. -/
def makeBlock (b : SpirvBuilder) : Nat × SpirvBuilder :=
  let p := b.getUniqueId
  (p.1, { p.2 with
          blocks := p.2.blocks ++ [{ id := p.1, instructions := [], predecessors := [] }] })

/-- Modelled from the spec: `Function::addBlock` — attach a block to the
enclosing function; attachment order defines the final block order. -/
def addBlock (b : SpirvBuilder) (bid : Nat) : SpirvBuilder :=
  { b with functionBlocks := b.functionBlocks ++ [bid] }

/-- Modelled from the spec: `setBuildPoint` — redirect the single insertion
cursor. -/
def setBuildPoint (b : SpirvBuilder) (bid : Nat) : SpirvBuilder :=
  { b with buildPoint := bid }

/-- Modelled from the spec: the type-id table consulted by `getTypeId` —
the declared result type of an id, `0` when unknown. -/
def getTypeId (b : SpirvBuilder) (id : Nat) : Nat :=
  match b.types.find? fun p => p.1 == id with
  | some p => p.2
  | none => 0

/-- Modelled from the spec: `addDecoration` — record a decoration for an id. -/
def addDecoration (b : SpirvBuilder) (id deco : Nat) : SpirvBuilder :=
  { b with decorations := b.decorations ++ [(id, deco)] }

/-- Modelled from the spec: `createSpecConstantOp` — build the equivalent
constant-expression record (same opcode and operands, no block membership)
with a fresh result id and return that id. -/
def createSpecConstantOp (b : SpirvBuilder) (opCode : SpvOp) (typeId : Nat)
    (operands : List Nat) (literals : List Nat) : Nat × SpirvBuilder :=
  let p := b.getUniqueId
  (p.1, { p.2 with
          specConstants := p.2.specConstants ++
            [{ resultId := p.1, typeId := typeId, opCode := opCode,
               idOperands := operands, literals := literals }],
          types := (p.1, typeId) :: p.2.types })

/-- Modelled from the spec: `createBranch` — append an unconditional branch
to the current build point and register the build point as a predecessor of
the target. -/
def createBranch (b : SpirvBuilder) (targetId : Nat) : SpirvBuilder :=
  let b1 := b.addInstructionTo b.buildPoint
    { resultId := none, typeId := none, opCode := SpvOp.OpBranch,
      operands := [Operand.idOperand targetId] }
  b1.addPredecessor targetId b.buildPoint

/-- Modelled from the spec: `createSelectionMerge` — append a
selection-merge instruction naming the merge block and the control flags to
the current build point. -/
def createSelectionMerge (b : SpirvBuilder) (mergeId control : Nat) : SpirvBuilder :=
  b.addInstructionTo b.buildPoint
    { resultId := none, typeId := none, opCode := SpvOp.OpSelectionMerge,
      operands := [Operand.idOperand mergeId, Operand.immediate control] }

/-- `SpirvBuilder::createQuadOp` (spirv_builder.cc lines 21–42): if
`generatingOpCodeForSpecConst` is set, divert the four operands to
`createSpecConstantOp`; otherwise allocate a fresh result id, build the
instruction with the four id operands in argument order, append it to the
build point and return the result id. -/
def createQuadOp (b : SpirvBuilder) (opCode : SpvOp) (typeId : Nat)
    (operand1 operand2 operand3 operand4 : Nat) : Nat × SpirvBuilder :=
  if b.generatingOpCodeForSpecConst then
    b.createSpecConstantOp opCode typeId [operand1, operand2, operand3, operand4] []
  else
    let p := b.getUniqueId
    let op : Instruction :=
      { resultId := some p.1, typeId := some typeId, opCode := opCode,
        operands := [Operand.idOperand operand1, Operand.idOperand operand2,
                     Operand.idOperand operand3, Operand.idOperand operand4] }
    let b2 := p.2.addInstructionTo p.2.buildPoint op
    (p.1, { b2 with types := (p.1, typeId) :: b2.types })

/-- `SpirvBuilder::createUnaryBuiltinCall` (lines 60–72): an `OpExtInst`
instruction with a fresh result id, operands `[builtins, entry_point
(immediate), operand]`, appended to the build point unconditionally. -/
def createUnaryBuiltinCall (b : SpirvBuilder) (resultType builtins entryPoint operand : Nat) :
    Nat × SpirvBuilder :=
  let p := b.getUniqueId
  let inst : Instruction :=
    { resultId := some p.1, typeId := some resultType, opCode := SpvOp.OpExtInst,
      operands := [Operand.idOperand builtins, Operand.immediate entryPoint,
                   Operand.idOperand operand] }
  let b2 := p.2.addInstructionTo p.2.buildPoint inst
  (p.1, { b2 with types := (p.1, resultType) :: b2.types })

/-- `SpirvBuilder::createBinBuiltinCall` (lines 74–87). -/
def createBinBuiltinCall (b : SpirvBuilder)
    (resultType builtins entryPoint operand1 operand2 : Nat) : Nat × SpirvBuilder :=
  let p := b.getUniqueId
  let inst : Instruction :=
    { resultId := some p.1, typeId := some resultType, opCode := SpvOp.OpExtInst,
      operands := [Operand.idOperand builtins, Operand.immediate entryPoint,
                   Operand.idOperand operand1, Operand.idOperand operand2] }
  let b2 := p.2.addInstructionTo p.2.buildPoint inst
  (p.1, { b2 with types := (p.1, resultType) :: b2.types })

/-- `SpirvBuilder::createTriBuiltinCall` (lines 89–104). -/
def createTriBuiltinCall (b : SpirvBuilder)
    (resultType builtins entryPoint operand1 operand2 operand3 : Nat) : Nat × SpirvBuilder :=
  let p := b.getUniqueId
  let inst : Instruction :=
    { resultId := some p.1, typeId := some resultType, opCode := SpvOp.OpExtInst,
      operands := [Operand.idOperand builtins, Operand.immediate entryPoint,
                   Operand.idOperand operand1, Operand.idOperand operand2,
                   Operand.idOperand operand3] }
  let b2 := p.2.addInstructionTo p.2.buildPoint inst
  (p.1, { b2 with types := (p.1, resultType) :: b2.types })

/-- `SpirvBuilder::createNoContractionUnaryOp` (lines 44–50), with the base
`createUnaryOp` modelled from the spec as the unary analogue of
`createQuadOp`. -/
def createUnaryOp (b : SpirvBuilder) (opCode : SpvOp) (typeId operand : Nat) :
    Nat × SpirvBuilder :=
  if b.generatingOpCodeForSpecConst then
    b.createSpecConstantOp opCode typeId [operand] []
  else
    let p := b.getUniqueId
    let op : Instruction :=
      { resultId := some p.1, typeId := some typeId, opCode := opCode,
        operands := [Operand.idOperand operand] }
    let b2 := p.2.addInstructionTo p.2.buildPoint op
    (p.1, { b2 with types := (p.1, typeId) :: b2.types })

end SpirvBuilder

/-- The phase tag of the structured-if builder (`Branch::kThen` /
`Branch::kElse` / `Branch::kMerge`, declared in the header and kept under
`#ifndef NDEBUG` in the source). -/
inductive Branch where
  | kThen
  | kElse
  | kMerge
deriving DecidableEq, Repr

/-- `SpirvBuilder::IfBuilder`: the per-construct state — the condition id,
selection-control flags, branch weights, the three block ids, the captured
header block id, the two phi-parent ids and the debug phase tag. -/
structure IfBuilder where
  condition : Nat
  control : Nat
  thenWeight : Nat
  elseWeight : Nat
  thenBlock : Nat
  elseBlock : Option Nat
  mergeBlock : Nat
  headerBlock : Nat
  thenPhiParent : Nat
  elsePhiParent : Nat
  currentBranch : Branch
deriving DecidableEq, Repr

namespace IfBuilder

/-- `SpirvBuilder::IfBuilder::IfBuilder` (lines 106–133): create `thenBlock`
and `mergeBlock` detached, capture the build point as the header, initialize
both phi parents to the header block's id, attach only `thenBlock`, and
redirect the build point to it. -/
def make (condition control thenWeight elseWeight : Nat) (b : SpirvBuilder) :
    IfBuilder × SpirvBuilder :=
  let pThen := b.makeBlock
  let pMerge := pThen.2.makeBlock
  let headerBlockId := pMerge.2.buildPoint
  let b3 := pMerge.2.addBlock pThen.1
  let b4 := b3.setBuildPoint pThen.1
  ({ condition := condition, control := control,
     thenWeight := thenWeight, elseWeight := elseWeight,
     thenBlock := pThen.1, elseBlock := none, mergeBlock := pMerge.1,
     headerBlock := headerBlockId,
     thenPhiParent := headerBlockId, elsePhiParent := headerBlockId,
     currentBranch := Branch.kThen }, b4)

/-- The condition asserted by `makeBeginElse` under `#ifndef NDEBUG`
(line 137). -/
def beginElseAllowed (ib : IfBuilder) : Bool :=
  ib.currentBranch == Branch.kThen

/-- The condition asserted by `makeEndIf` under `#ifndef NDEBUG`
(line 160). -/
def endIfAllowed (ib : IfBuilder) : Bool :=
  ib.currentBranch == Branch.kThen || ib.currentBranch == Branch.kElse

/-- `SpirvBuilder::IfBuilder::makeBeginElse` (lines 135–156): optionally
close the then-region with a branch to the merge block (recording the
then-phi parent), then create and attach the else block and move the build
point into it. -/
def makeBeginElse (ib : IfBuilder) (branchToMerge : Bool) (b : SpirvBuilder) :
    IfBuilder × SpirvBuilder :=
  let q : IfBuilder × SpirvBuilder :=
    if branchToMerge then
      ({ ib with thenPhiParent := b.buildPoint }, b.createBranch ib.mergeBlock)
    else
      (ib, b)
  let pElse := q.2.makeBlock
  let b2 := pElse.2.addBlock pElse.1
  let b3 := b2.setBuildPoint pElse.1
  ({ q.1 with elseBlock := some pElse.1, currentBranch := Branch.kElse }, b3)

/-- `SpirvBuilder::IfBuilder::makeEndIf` (lines 158–196): optionally close
the active region with a branch to the merge block (recording the else-phi
parent when an else block exists, else the then-phi parent), return to the
header, emit the selection merge and the conditional branch (weights only
when one is non-zero), register the header as a predecessor of both targets,
attach the merge block last and move the build point into it. -/
def makeEndIf (ib : IfBuilder) (branchToMerge : Bool) (b : SpirvBuilder) :
    IfBuilder × SpirvBuilder :=
  let q : IfBuilder × SpirvBuilder :=
    if branchToMerge then
      (match ib.elseBlock with
       | some _ => { ib with elsePhiParent := b.buildPoint }
       | none => { ib with thenPhiParent := b.buildPoint },
       b.createBranch ib.mergeBlock)
    else
      (ib, b)
  let b2 := q.2.setBuildPoint q.1.headerBlock
  let b3 := b2.createSelectionMerge q.1.mergeBlock q.1.control
  let falseBlock := q.1.elseBlock.getD q.1.mergeBlock
  let branchInst : Instruction :=
    { resultId := none, typeId := none, opCode := SpvOp.OpBranchConditional,
      operands :=
        [Operand.idOperand q.1.condition, Operand.idOperand q.1.thenBlock,
         Operand.idOperand falseBlock] ++
        (if q.1.thenWeight ≠ 0 ∨ q.1.elseWeight ≠ 0 then
           [Operand.immediate q.1.thenWeight, Operand.immediate q.1.elseWeight]
         else []) }
  let b4 := b3.addInstructionTo b3.buildPoint branchInst
  let b5 := b4.addPredecessor q.1.thenBlock b4.buildPoint
  let b6 := b5.addPredecessor falseBlock b5.buildPoint
  let b7 := b6.addBlock q.1.mergeBlock
  let b8 := b7.setBuildPoint q.1.mergeBlock
  ({ q.1 with currentBranch := Branch.kMerge }, b8)

/-- `SpirvBuilder::IfBuilder::createMergePhi` (lines 198–204): a quad op
with opcode `OpPhi`, result type `getTypeId(then_variable)` and operands
`(then_variable, thenPhiParent, else_variable, elsePhiParent)`. -/
def createMergePhi (ib : IfBuilder) (thenVariable elseVariable : Nat) (b : SpirvBuilder) :
    Nat × SpirvBuilder :=
  b.createQuadOp SpvOp.OpPhi (b.getTypeId thenVariable)
    thenVariable ib.thenPhiParent elseVariable ib.elsePhiParent

/-- The condition asserted by `createMergePhi` (line 200). -/
def mergePhiAllowed (ib : IfBuilder) (b : SpirvBuilder) : Bool :=
  b.buildPoint == ib.mergeBlock

end IfBuilder

/-! ## Lookup and frame lemmas for the primitive operations -/

namespace SpirvBuilder

/-- All created block ids are below the id counter. -/
def IdsBelow (b : SpirvBuilder) : Prop :=
  ∀ blk ∈ b.blocks, blk.id < b.nextId

theorem find_map_of_id_eq (l : List Block) (g : Block → Block)
    (hg : ∀ blk, (g blk).id = blk.id) (q : Nat) :
    (l.map g).find? (fun blk => blk.id == q) =
      (l.find? (fun blk => blk.id == q)).map g := by
  induction l with
  | nil => rfl
  | cons a l ih =>
    by_cases h : a.id = q
    · simp [List.find?_cons, hg, h]
    · simp [List.find?_cons, hg, h, ih]

theorem findBlock_id {b : SpirvBuilder} {q : Nat} {blk : Block}
    (h : b.findBlock q = some blk) : blk.id = q := by
  have := List.find?_some h
  simpa using this

theorem findBlock_mem {b : SpirvBuilder} {q : Nat} {blk : Block}
    (h : b.findBlock q = some blk) : blk ∈ b.blocks :=
  List.mem_of_find?_eq_some h

theorem findBlock_addInstructionTo (b : SpirvBuilder) (p : Nat) (i : Instruction) (q : Nat) :
    (b.addInstructionTo p i).findBlock q =
      (b.findBlock q).map fun blk =>
        if blk.id = p then { blk with instructions := blk.instructions ++ [i] } else blk := by
  unfold addInstructionTo findBlock updateBlock
  exact find_map_of_id_eq _ _ (fun blk => by by_cases h : blk.id = p <;> simp [h]) q

theorem findBlock_addInstructionTo_ne {b : SpirvBuilder} {p q : Nat} (i : Instruction)
    (hne : q ≠ p) :
    (b.addInstructionTo p i).findBlock q = b.findBlock q := by
  rw [findBlock_addInstructionTo]
  cases h : b.findBlock q with
  | none => rfl
  | some blk => simp [findBlock_id h, hne]

theorem findBlock_addInstructionTo_self {b : SpirvBuilder} {p : Nat} {blk : Block}
    (i : Instruction) (h : b.findBlock p = some blk) :
    (b.addInstructionTo p i).findBlock p =
      some { blk with instructions := blk.instructions ++ [i] } := by
  rw [findBlock_addInstructionTo, h]
  simp [findBlock_id h]

theorem findBlock_addPredecessor (b : SpirvBuilder) (p pred q : Nat) :
    (b.addPredecessor p pred).findBlock q =
      (b.findBlock q).map fun blk =>
        if blk.id = p then { blk with predecessors := blk.predecessors ++ [pred] } else blk := by
  unfold addPredecessor findBlock updateBlock
  exact find_map_of_id_eq _ _ (fun blk => by by_cases h : blk.id = p <;> simp [h]) q

theorem findBlock_addPredecessor_ne {b : SpirvBuilder} {p q : Nat} (pred : Nat)
    (hne : q ≠ p) :
    (b.addPredecessor p pred).findBlock q = b.findBlock q := by
  rw [findBlock_addPredecessor]
  cases h : b.findBlock q with
  | none => rfl
  | some blk => simp [findBlock_id h, hne]

theorem findBlock_addPredecessor_self {b : SpirvBuilder} {p : Nat} {blk : Block}
    (pred : Nat) (h : b.findBlock p = some blk) :
    (b.addPredecessor p pred).findBlock p =
      some { blk with predecessors := blk.predecessors ++ [pred] } := by
  rw [findBlock_addPredecessor, h]
  simp [findBlock_id h]

theorem idsBelow_addInstructionTo {b : SpirvBuilder} {p : Nat} {i : Instruction}
    (hids : IdsBelow b) : IdsBelow (b.addInstructionTo p i) := by
  intro blk hblk
  unfold addInstructionTo updateBlock at hblk
  simp only [List.mem_map] at hblk
  obtain ⟨a, ha, rfl⟩ := hblk
  have hlt := hids a ha
  by_cases h : a.id = p
  · simpa [addInstructionTo, h] using h ▸ hlt
  · simpa [addInstructionTo, h] using hlt

theorem idsBelow_addPredecessor {b : SpirvBuilder} {p pred : Nat}
    (hids : IdsBelow b) : IdsBelow (b.addPredecessor p pred) := by
  intro blk hblk
  unfold addPredecessor updateBlock at hblk
  simp only [List.mem_map] at hblk
  obtain ⟨a, ha, rfl⟩ := hblk
  have hlt := hids a ha
  by_cases h : a.id = p
  · simpa [addPredecessor, h] using h ▸ hlt
  · simpa [addPredecessor, h] using hlt

theorem makeBlock_eq (b : SpirvBuilder) :
    b.makeBlock = (b.nextId,
      { b with nextId := b.nextId + 1,
               blocks := b.blocks ++ [⟨b.nextId, [], []⟩] }) := rfl

theorem findBlock_makeBlock {b : SpirvBuilder} (hids : IdsBelow b) (q : Nat) :
    (b.makeBlock).2.findBlock q =
      if q = b.nextId then some ⟨b.nextId, [], []⟩ else b.findBlock q := by
  rw [makeBlock_eq]
  show (b.blocks ++
      [({ id := b.nextId, instructions := [], predecessors := [] } : Block)]).find?
      (fun blk => blk.id == q) = _
  rw [List.find?_append]
  by_cases h : q = b.nextId
  · have hnone : b.blocks.find? (fun blk => blk.id == q) = none := by
      rw [List.find?_eq_none]
      intro a ha
      have := hids a ha
      simp only [beq_iff_eq, h]
      omega
    rw [hnone]
    simp [h]
  · have hlast : ([(⟨b.nextId, [], []⟩ : Block)].find? fun blk => blk.id == q) = none := by
      simp [List.find?_cons, Ne.symm h]
    rw [hlast, Option.or_none]
    simp [h, findBlock]

theorem idsBelow_makeBlock {b : SpirvBuilder} (hids : IdsBelow b) :
    IdsBelow (b.makeBlock).2 := by
  rw [makeBlock_eq]
  intro blk hblk
  rcases List.mem_append.1 hblk with h | h
  · exact Nat.lt_succ_of_lt (hids blk h)
  · simp only [List.mem_singleton] at h
    subst h
    exact Nat.lt_succ_self _

@[simp] theorem addInstructionTo_nextId (b : SpirvBuilder) (p : Nat) (i : Instruction) :
    (b.addInstructionTo p i).nextId = b.nextId := rfl

@[simp] theorem addInstructionTo_buildPoint (b : SpirvBuilder) (p : Nat) (i : Instruction) :
    (b.addInstructionTo p i).buildPoint = b.buildPoint := rfl

@[simp] theorem addInstructionTo_functionBlocks (b : SpirvBuilder) (p : Nat) (i : Instruction) :
    (b.addInstructionTo p i).functionBlocks = b.functionBlocks := rfl

@[simp] theorem addInstructionTo_mode (b : SpirvBuilder) (p : Nat) (i : Instruction) :
    (b.addInstructionTo p i).generatingOpCodeForSpecConst =
      b.generatingOpCodeForSpecConst := rfl

@[simp] theorem addInstructionTo_specConstants (b : SpirvBuilder) (p : Nat) (i : Instruction) :
    (b.addInstructionTo p i).specConstants = b.specConstants := rfl

@[simp] theorem addPredecessor_nextId (b : SpirvBuilder) (p pred : Nat) :
    (b.addPredecessor p pred).nextId = b.nextId := rfl

@[simp] theorem addPredecessor_buildPoint (b : SpirvBuilder) (p pred : Nat) :
    (b.addPredecessor p pred).buildPoint = b.buildPoint := rfl

@[simp] theorem addPredecessor_functionBlocks (b : SpirvBuilder) (p pred : Nat) :
    (b.addPredecessor p pred).functionBlocks = b.functionBlocks := rfl

@[simp] theorem addPredecessor_mode (b : SpirvBuilder) (p pred : Nat) :
    (b.addPredecessor p pred).generatingOpCodeForSpecConst =
      b.generatingOpCodeForSpecConst := rfl

@[simp] theorem addPredecessor_specConstants (b : SpirvBuilder) (p pred : Nat) :
    (b.addPredecessor p pred).specConstants = b.specConstants := rfl

@[simp] theorem setBuildPoint_buildPoint (b : SpirvBuilder) (p : Nat) :
    (b.setBuildPoint p).buildPoint = p := rfl

@[simp] theorem setBuildPoint_nextId (b : SpirvBuilder) (p : Nat) :
    (b.setBuildPoint p).nextId = b.nextId := rfl

@[simp] theorem setBuildPoint_functionBlocks (b : SpirvBuilder) (p : Nat) :
    (b.setBuildPoint p).functionBlocks = b.functionBlocks := rfl

@[simp] theorem setBuildPoint_mode (b : SpirvBuilder) (p : Nat) :
    (b.setBuildPoint p).generatingOpCodeForSpecConst =
      b.generatingOpCodeForSpecConst := rfl

@[simp] theorem setBuildPoint_findBlock (b : SpirvBuilder) (p q : Nat) :
    (b.setBuildPoint p).findBlock q = b.findBlock q := rfl

@[simp] theorem setBuildPoint_specConstants (b : SpirvBuilder) (p : Nat) :
    (b.setBuildPoint p).specConstants = b.specConstants := rfl

@[simp] theorem addBlock_buildPoint (b : SpirvBuilder) (p : Nat) :
    (b.addBlock p).buildPoint = b.buildPoint := rfl

@[simp] theorem addBlock_nextId (b : SpirvBuilder) (p : Nat) :
    (b.addBlock p).nextId = b.nextId := rfl

@[simp] theorem addBlock_functionBlocks (b : SpirvBuilder) (p : Nat) :
    (b.addBlock p).functionBlocks = b.functionBlocks ++ [p] := rfl

@[simp] theorem addBlock_mode (b : SpirvBuilder) (p : Nat) :
    (b.addBlock p).generatingOpCodeForSpecConst = b.generatingOpCodeForSpecConst := rfl

@[simp] theorem addBlock_findBlock (b : SpirvBuilder) (p q : Nat) :
    (b.addBlock p).findBlock q = b.findBlock q := rfl

@[simp] theorem addBlock_specConstants (b : SpirvBuilder) (p : Nat) :
    (b.addBlock p).specConstants = b.specConstants := rfl

@[simp] theorem makeBlock_fst (b : SpirvBuilder) : (b.makeBlock).1 = b.nextId := rfl

@[simp] theorem makeBlock_nextId (b : SpirvBuilder) :
    (b.makeBlock).2.nextId = b.nextId + 1 := rfl

@[simp] theorem makeBlock_buildPoint (b : SpirvBuilder) :
    (b.makeBlock).2.buildPoint = b.buildPoint := rfl

@[simp] theorem makeBlock_functionBlocks (b : SpirvBuilder) :
    (b.makeBlock).2.functionBlocks = b.functionBlocks := rfl

@[simp] theorem makeBlock_mode (b : SpirvBuilder) :
    (b.makeBlock).2.generatingOpCodeForSpecConst = b.generatingOpCodeForSpecConst := rfl

@[simp] theorem makeBlock_specConstants (b : SpirvBuilder) :
    (b.makeBlock).2.specConstants = b.specConstants := rfl

/-- The unconditional branch instruction emitted by `createBranch`. -/
def branchInstruction (targetId : Nat) : Instruction :=
  { resultId := none, typeId := none, opCode := SpvOp.OpBranch,
    operands := [Operand.idOperand targetId] }

/-- The selection-merge instruction emitted by `createSelectionMerge`. -/
def selectionMergeInstruction (mergeId control : Nat) : Instruction :=
  { resultId := none, typeId := none, opCode := SpvOp.OpSelectionMerge,
    operands := [Operand.idOperand mergeId, Operand.immediate control] }

theorem createBranch_eq (b : SpirvBuilder) (t : Nat) :
    b.createBranch t =
      (b.addInstructionTo b.buildPoint (branchInstruction t)).addPredecessor t b.buildPoint := rfl

@[simp] theorem createBranch_nextId (b : SpirvBuilder) (t : Nat) :
    (b.createBranch t).nextId = b.nextId := rfl

@[simp] theorem createBranch_buildPoint (b : SpirvBuilder) (t : Nat) :
    (b.createBranch t).buildPoint = b.buildPoint := rfl

@[simp] theorem createBranch_functionBlocks (b : SpirvBuilder) (t : Nat) :
    (b.createBranch t).functionBlocks = b.functionBlocks := rfl

@[simp] theorem createBranch_mode (b : SpirvBuilder) (t : Nat) :
    (b.createBranch t).generatingOpCodeForSpecConst = b.generatingOpCodeForSpecConst := rfl

@[simp] theorem createBranch_specConstants (b : SpirvBuilder) (t : Nat) :
    (b.createBranch t).specConstants = b.specConstants := rfl

theorem idsBelow_createBranch {b : SpirvBuilder} {t : Nat} (hids : IdsBelow b) :
    IdsBelow (b.createBranch t) :=
  idsBelow_addPredecessor (idsBelow_addInstructionTo hids)

theorem findBlock_createBranch_other {b : SpirvBuilder} {t q : Nat}
    (h1 : q ≠ b.buildPoint) (h2 : q ≠ t) :
    (b.createBranch t).findBlock q = b.findBlock q := by
  rw [createBranch_eq, findBlock_addPredecessor_ne _ h2, findBlock_addInstructionTo_ne _ h1]

theorem findBlock_createBranch_bp {b : SpirvBuilder} {t : Nat} {blk : Block}
    (h : b.findBlock b.buildPoint = some blk) (hne : b.buildPoint ≠ t) :
    (b.createBranch t).findBlock b.buildPoint =
      some { blk with instructions := blk.instructions ++ [branchInstruction t] } := by
  rw [createBranch_eq, findBlock_addPredecessor_ne _ hne]
  exact findBlock_addInstructionTo_self _ h

theorem findBlock_createBranch_target {b : SpirvBuilder} {t : Nat} {blk : Block}
    (h : b.findBlock t = some blk) (hne : t ≠ b.buildPoint) :
    (b.createBranch t).findBlock t =
      some { blk with predecessors := blk.predecessors ++ [b.buildPoint] } := by
  rw [createBranch_eq]
  have h1 : (b.addInstructionTo b.buildPoint (branchInstruction t)).findBlock t = some blk :=
    (findBlock_addInstructionTo_ne _ hne).trans h
  exact findBlock_addPredecessor_self _ h1

theorem createSelectionMerge_eq (b : SpirvBuilder) (m c : Nat) :
    b.createSelectionMerge m c =
      b.addInstructionTo b.buildPoint (selectionMergeInstruction m c) := rfl

@[simp] theorem createSelectionMerge_nextId (b : SpirvBuilder) (m c : Nat) :
    (b.createSelectionMerge m c).nextId = b.nextId := rfl

@[simp] theorem createSelectionMerge_buildPoint (b : SpirvBuilder) (m c : Nat) :
    (b.createSelectionMerge m c).buildPoint = b.buildPoint := rfl

@[simp] theorem createSelectionMerge_functionBlocks (b : SpirvBuilder) (m c : Nat) :
    (b.createSelectionMerge m c).functionBlocks = b.functionBlocks := rfl

@[simp] theorem createSelectionMerge_mode (b : SpirvBuilder) (m c : Nat) :
    (b.createSelectionMerge m c).generatingOpCodeForSpecConst =
      b.generatingOpCodeForSpecConst := rfl

@[simp] theorem createSelectionMerge_specConstants (b : SpirvBuilder) (m c : Nat) :
    (b.createSelectionMerge m c).specConstants = b.specConstants := rfl

theorem idsBelow_createSelectionMerge {b : SpirvBuilder} {m c : Nat} (hids : IdsBelow b) :
    IdsBelow (b.createSelectionMerge m c) :=
  idsBelow_addInstructionTo hids

/-- The runtime instruction built by `createQuadOp` outside spec-constant
mode. -/
def quadOpInstruction (resultId : Nat) (opCode : SpvOp) (typeId o1 o2 o3 o4 : Nat) :
    Instruction :=
  { resultId := some resultId, typeId := some typeId, opCode := opCode,
    operands := [Operand.idOperand o1, Operand.idOperand o2,
                 Operand.idOperand o3, Operand.idOperand o4] }

theorem createQuadOp_off (b : SpirvBuilder) (op : SpvOp) (ty o1 o2 o3 o4 : Nat)
    (h : b.generatingOpCodeForSpecConst = false) :
    b.createQuadOp op ty o1 o2 o3 o4 =
      (b.nextId,
       ({ b with nextId := b.nextId + 1,
                 types := (b.nextId, ty) :: b.types }).addInstructionTo b.buildPoint
         (quadOpInstruction b.nextId op ty o1 o2 o3 o4)) := by
  have hc : ¬(b.generatingOpCodeForSpecConst = true) := by simp [h]
  unfold createQuadOp
  rw [if_neg hc]
  rfl

theorem createQuadOp_on (b : SpirvBuilder) (op : SpvOp) (ty o1 o2 o3 o4 : Nat)
    (h : b.generatingOpCodeForSpecConst = true) :
    b.createQuadOp op ty o1 o2 o3 o4 =
      (b.nextId,
       { b with nextId := b.nextId + 1,
                specConstants := b.specConstants ++
                  [{ resultId := b.nextId, typeId := ty, opCode := op,
                     idOperands := [o1, o2, o3, o4], literals := [] }],
                types := (b.nextId, ty) :: b.types }) := by
  unfold createQuadOp createSpecConstantOp
  rw [if_pos h]
  rfl

@[simp] theorem createQuadOp_snd_nextId (b : SpirvBuilder) (op : SpvOp)
    (ty o1 o2 o3 o4 : Nat) :
    (b.createQuadOp op ty o1 o2 o3 o4).2.nextId = b.nextId + 1 := by
  cases h : b.generatingOpCodeForSpecConst
  · rw [createQuadOp_off _ _ _ _ _ _ _ h]
    rfl
  · rw [createQuadOp_on _ _ _ _ _ _ _ h]


@[simp] theorem createQuadOp_fst (b : SpirvBuilder) (op : SpvOp) (ty o1 o2 o3 o4 : Nat) :
    (b.createQuadOp op ty o1 o2 o3 o4).1 = b.nextId := by
  cases h : b.generatingOpCodeForSpecConst
  · rw [createQuadOp_off _ _ _ _ _ _ _ h]
  · rw [createQuadOp_on _ _ _ _ _ _ _ h]

@[simp] theorem createQuadOp_snd_buildPoint (b : SpirvBuilder) (op : SpvOp)
    (ty o1 o2 o3 o4 : Nat) :
    (b.createQuadOp op ty o1 o2 o3 o4).2.buildPoint = b.buildPoint := by
  cases h : b.generatingOpCodeForSpecConst
  · rw [createQuadOp_off _ _ _ _ _ _ _ h]; rfl
  · rw [createQuadOp_on _ _ _ _ _ _ _ h]

@[simp] theorem createQuadOp_snd_functionBlocks (b : SpirvBuilder) (op : SpvOp)
    (ty o1 o2 o3 o4 : Nat) :
    (b.createQuadOp op ty o1 o2 o3 o4).2.functionBlocks = b.functionBlocks := by
  cases h : b.generatingOpCodeForSpecConst
  · rw [createQuadOp_off _ _ _ _ _ _ _ h]; rfl
  · rw [createQuadOp_on _ _ _ _ _ _ _ h]

@[simp] theorem createQuadOp_snd_mode (b : SpirvBuilder) (op : SpvOp)
    (ty o1 o2 o3 o4 : Nat) :
    (b.createQuadOp op ty o1 o2 o3 o4).2.generatingOpCodeForSpecConst =
      b.generatingOpCodeForSpecConst := by
  cases h : b.generatingOpCodeForSpecConst
  · rw [createQuadOp_off _ _ _ _ _ _ _ h]
    exact h
  · rw [createQuadOp_on _ _ _ _ _ _ _ h]
    exact h

theorem createQuadOp_off_findBlock_ne {b : SpirvBuilder} {op : SpvOp}
    {ty o1 o2 o3 o4 q : Nat}
    (h : b.generatingOpCodeForSpecConst = false) (hq : q ≠ b.buildPoint) :
    (b.createQuadOp op ty o1 o2 o3 o4).2.findBlock q = b.findBlock q := by
  rw [createQuadOp_off _ _ _ _ _ _ _ h]
  exact findBlock_addInstructionTo_ne _ hq

theorem createQuadOp_off_findBlock_bp {b : SpirvBuilder} {op : SpvOp}
    {ty o1 o2 o3 o4 : Nat} {blk : Block}
    (h : b.generatingOpCodeForSpecConst = false)
    (hblk : b.findBlock b.buildPoint = some blk) :
    (b.createQuadOp op ty o1 o2 o3 o4).2.findBlock b.buildPoint =
      some { blk with instructions :=
        blk.instructions ++ [quadOpInstruction b.nextId op ty o1 o2 o3 o4] } := by
  rw [createQuadOp_off _ _ _ _ _ _ _ h]
  exact findBlock_addInstructionTo_self _ hblk

theorem idsBelow_createQuadOp {b : SpirvBuilder} {op : SpvOp} {ty o1 o2 o3 o4 : Nat}
    (hids : IdsBelow b) : IdsBelow (b.createQuadOp op ty o1 o2 o3 o4).2 := by
  cases h : b.generatingOpCodeForSpecConst
  · rw [createQuadOp_off _ _ _ _ _ _ _ h]
    have step : IdsBelow
        ({ b with
            nextId := b.nextId + 1,
            types := (b.nextId, ty) :: b.types } : SpirvBuilder) := by
      intro a ha
      exact Nat.lt_succ_of_lt (hids a ha)
    exact idsBelow_addInstructionTo step
  · rw [createQuadOp_on _ _ _ _ _ _ _ h]
    intro blk hblk
    exact Nat.lt_succ_of_lt (hids blk hblk)

end SpirvBuilder

/-! ## Straight-line emission sequences

A region's body is modelled as a list of `createQuadOp` calls — the generic
N-ary emission operation of the emitter — performed while the build point
stays on the region's block. -/

/-- The arguments of one `createQuadOp` call. -/
structure QuadCall where
  op : SpvOp
  ty : Nat
  o1 : Nat
  o2 : Nat
  o3 : Nat
  o4 : Nat
deriving DecidableEq, Repr

/-- Run a list of `createQuadOp` calls, discarding the returned ids. -/
def emitQuads (ops : List QuadCall) (b : SpirvBuilder) : SpirvBuilder :=
  ops.foldl (fun s c => (s.createQuadOp c.op c.ty c.o1 c.o2 c.o3 c.o4).2) b

theorem emitQuads_nil (b : SpirvBuilder) : emitQuads [] b = b := rfl

theorem emitQuads_cons (c : QuadCall) (ops : List QuadCall) (b : SpirvBuilder) :
    emitQuads (c :: ops) b =
      emitQuads ops (b.createQuadOp c.op c.ty c.o1 c.o2 c.o3 c.o4).2 := rfl

theorem emitQuads_buildPoint (ops : List QuadCall) :
    ∀ b : SpirvBuilder, (emitQuads ops b).buildPoint = b.buildPoint := by
  induction ops with
  | nil => intro b; rfl
  | cons c ops ih =>
    intro b
    rw [emitQuads_cons, ih]
    simp

theorem emitQuads_functionBlocks (ops : List QuadCall) :
    ∀ b : SpirvBuilder, (emitQuads ops b).functionBlocks = b.functionBlocks := by
  induction ops with
  | nil => intro b; rfl
  | cons c ops ih =>
    intro b
    rw [emitQuads_cons, ih]
    simp

theorem emitQuads_mode (ops : List QuadCall) :
    ∀ b : SpirvBuilder, (emitQuads ops b).generatingOpCodeForSpecConst =
      b.generatingOpCodeForSpecConst := by
  induction ops with
  | nil => intro b; rfl
  | cons c ops ih =>
    intro b
    rw [emitQuads_cons, ih]
    simp

theorem emitQuads_nextId (ops : List QuadCall) :
    ∀ b : SpirvBuilder, (emitQuads ops b).nextId = b.nextId + ops.length := by
  induction ops with
  | nil => intro b; rfl
  | cons c ops ih =>
    intro b
    rw [emitQuads_cons, ih]
    simp only [SpirvBuilder.createQuadOp_snd_nextId, List.length_cons]
    omega

theorem idsBelow_emitQuads (ops : List QuadCall) :
    ∀ b : SpirvBuilder, SpirvBuilder.IdsBelow b →
      SpirvBuilder.IdsBelow (emitQuads ops b) := by
  induction ops with
  | nil => intro b h; exact h
  | cons c ops ih =>
    intro b h
    rw [emitQuads_cons]
    exact ih _ (SpirvBuilder.idsBelow_createQuadOp h)

theorem emitQuads_findBlock_ne (ops : List QuadCall) :
    ∀ b : SpirvBuilder, ∀ q : Nat, b.generatingOpCodeForSpecConst = false →
      q ≠ b.buildPoint → (emitQuads ops b).findBlock q = b.findBlock q := by
  induction ops with
  | nil => intro b q _ _; rfl
  | cons c ops ih =>
    intro b q hmode hq
    rw [emitQuads_cons]
    have hmode2 : (b.createQuadOp c.op c.ty c.o1 c.o2 c.o3 c.o4).2.generatingOpCodeForSpecConst
        = false := by simp [hmode]
    have hq2 : q ≠ (b.createQuadOp c.op c.ty c.o1 c.o2 c.o3 c.o4).2.buildPoint := by
      simpa using hq
    rw [ih _ _ hmode2 hq2]
    exact SpirvBuilder.createQuadOp_off_findBlock_ne hmode hq

theorem emitQuads_findBlock_bp (ops : List QuadCall) :
    ∀ b : SpirvBuilder, ∀ blk : Block, b.generatingOpCodeForSpecConst = false →
      b.findBlock b.buildPoint = some blk →
      ∃ extra : List Instruction,
        (emitQuads ops b).findBlock b.buildPoint =
          some { blk with instructions := blk.instructions ++ extra } ∧
        ∀ i ∈ extra, ∃ c ∈ ops, i.opCode = c.op := by
  induction ops with
  | nil =>
    intro b blk _ hblk
    exact ⟨[], by simpa using hblk, by simp⟩
  | cons c ops ih =>
    intro b blk hmode hblk
    rw [emitQuads_cons]
    set b2 := (b.createQuadOp c.op c.ty c.o1 c.o2 c.o3 c.o4).2 with hb2
    have hmode2 : b2.generatingOpCodeForSpecConst = false := by simp [hb2, hmode]
    have hbp2 : b2.buildPoint = b.buildPoint := by simp [hb2]
    have hblk2 : b2.findBlock b2.buildPoint =
        some { blk with instructions :=
          blk.instructions ++ [SpirvBuilder.quadOpInstruction b.nextId c.op c.ty c.o1 c.o2 c.o3 c.o4] } := by
      rw [hbp2]
      exact SpirvBuilder.createQuadOp_off_findBlock_bp hmode hblk
    obtain ⟨extra, hfind, hops⟩ := ih b2 _ hmode2 hblk2
    refine ⟨SpirvBuilder.quadOpInstruction b.nextId c.op c.ty c.o1 c.o2 c.o3 c.o4 :: extra,
      ?_, ?_⟩
    · rw [← hbp2]
      rw [hfind]
      simp
    · intro i hi
      rcases List.mem_cons.1 hi with h | h
      · exact ⟨c, List.mem_cons_self _ _, by rw [h]; rfl⟩
      · obtain ⟨d, hd, hop⟩ := hops i h
        exact ⟨d, List.mem_cons_of_mem _ hd, hop⟩

/-! ## Composite equations for the structured-if operations -/

/-- The conditional-branch instruction `makeEndIf` emits at the header
block: condition, true-target, false-target, and the two weight immediates
exactly when one of them is non-zero. -/
def condBranchInstruction (condition thenId falseId thenWeight elseWeight : Nat) :
    Instruction :=
  { resultId := none, typeId := none, opCode := SpvOp.OpBranchConditional,
    operands := [Operand.idOperand condition, Operand.idOperand thenId,
                 Operand.idOperand falseId] ++
      (if thenWeight ≠ 0 ∨ elseWeight ≠ 0 then
         [Operand.immediate thenWeight, Operand.immediate elseWeight]
       else []) }

theorem condBranchInstruction_operands_nonzero {thenWeight elseWeight : Nat}
    (condition thenId falseId : Nat) (h : thenWeight ≠ 0 ∨ elseWeight ≠ 0) :
    (condBranchInstruction condition thenId falseId thenWeight elseWeight).operands =
      [Operand.idOperand condition, Operand.idOperand thenId, Operand.idOperand falseId,
       Operand.immediate thenWeight, Operand.immediate elseWeight] := by
  unfold condBranchInstruction
  rw [if_pos h]
  rfl

theorem condBranchInstruction_operands_zero {thenWeight elseWeight : Nat}
    (condition thenId falseId : Nat) (h1 : thenWeight = 0) (h2 : elseWeight = 0) :
    (condBranchInstruction condition thenId falseId thenWeight elseWeight).operands =
      [Operand.idOperand condition, Operand.idOperand thenId,
       Operand.idOperand falseId] := by
  unfold condBranchInstruction
  rw [if_neg (by simp [h1, h2])]
  simp

namespace IfBuilder

open SpirvBuilder

theorem make_eq (cond ctrl tw ew : Nat) (b : SpirvBuilder) :
    make cond ctrl tw ew b =
      ({ condition := cond, control := ctrl, thenWeight := tw, elseWeight := ew,
         thenBlock := b.nextId, elseBlock := none, mergeBlock := b.nextId + 1,
         headerBlock := b.buildPoint, thenPhiParent := b.buildPoint,
         elsePhiParent := b.buildPoint, currentBranch := Branch.kThen },
       (((b.makeBlock).2.makeBlock).2.addBlock b.nextId).setBuildPoint b.nextId) := rfl

theorem makeBeginElse_true_eq (ib : IfBuilder) (b : SpirvBuilder) :
    ib.makeBeginElse true b =
      ({ ib with thenPhiParent := b.buildPoint, elseBlock := some b.nextId,
                 currentBranch := Branch.kElse },
       (((b.createBranch ib.mergeBlock).makeBlock).2.addBlock b.nextId).setBuildPoint
         b.nextId) := rfl

theorem makeBeginElse_false_eq (ib : IfBuilder) (b : SpirvBuilder) :
    ib.makeBeginElse false b =
      ({ ib with elseBlock := some b.nextId, currentBranch := Branch.kElse },
       ((b.makeBlock).2.addBlock b.nextId).setBuildPoint b.nextId) := rfl

theorem makeEndIf_true_some_eq (ib : IfBuilder) (e : Nat) (b : SpirvBuilder)
    (he : ib.elseBlock = some e) :
    ib.makeEndIf true b =
      ({ ib with elsePhiParent := b.buildPoint, currentBranch := Branch.kMerge },
       ((((((b.createBranch ib.mergeBlock).setBuildPoint
             ib.headerBlock).createSelectionMerge ib.mergeBlock
             ib.control).addInstructionTo ib.headerBlock
            (condBranchInstruction ib.condition ib.thenBlock e ib.thenWeight
              ib.elseWeight)).addPredecessor ib.thenBlock
           ib.headerBlock).addPredecessor e ib.headerBlock).addBlock
         ib.mergeBlock |>.setBuildPoint ib.mergeBlock) := by
  unfold makeEndIf
  rw [he]
  rfl

theorem makeEndIf_true_none_eq (ib : IfBuilder) (b : SpirvBuilder)
    (he : ib.elseBlock = none) :
    ib.makeEndIf true b =
      ({ ib with thenPhiParent := b.buildPoint, currentBranch := Branch.kMerge },
       ((((((b.createBranch ib.mergeBlock).setBuildPoint
             ib.headerBlock).createSelectionMerge ib.mergeBlock
             ib.control).addInstructionTo ib.headerBlock
            (condBranchInstruction ib.condition ib.thenBlock ib.mergeBlock ib.thenWeight
              ib.elseWeight)).addPredecessor ib.thenBlock
           ib.headerBlock).addPredecessor ib.mergeBlock ib.headerBlock).addBlock
         ib.mergeBlock |>.setBuildPoint ib.mergeBlock) := by
  unfold makeEndIf
  rw [he]
  rfl

theorem makeEndIf_false_eq (ib : IfBuilder) (b : SpirvBuilder) :
    ib.makeEndIf false b =
      ({ ib with currentBranch := Branch.kMerge },
       (((((b.setBuildPoint ib.headerBlock).createSelectionMerge ib.mergeBlock
             ib.control).addInstructionTo ib.headerBlock
            (condBranchInstruction ib.condition ib.thenBlock
              (ib.elseBlock.getD ib.mergeBlock) ib.thenWeight
              ib.elseWeight)).addPredecessor ib.thenBlock
           ib.headerBlock).addPredecessor (ib.elseBlock.getD ib.mergeBlock)
         ib.headerBlock).addBlock ib.mergeBlock |>.setBuildPoint ib.mergeBlock) := rfl

end IfBuilder

/-! ## Derived lookup lemmas for the structured-if compositions -/

theorem getLast?_append_pair {α : Type} (l : List α) (a c : α) :
    (l ++ [a, c]).getLast? = some c := by
  rw [show l ++ [a, c] = (l ++ [a]) ++ [c] by simp]
  exact List.getLast?_concat _

namespace SpirvBuilder

theorem findBlock_addPredecessor_keeps_instructions {b : SpirvBuilder}
    (p pred : Nat) {q : Nat} {blk : Block} (h : b.findBlock q = some blk) :
    ∃ blk2 : Block, (b.addPredecessor p pred).findBlock q = some blk2 ∧
      blk2.instructions = blk.instructions := by
  rw [findBlock_addPredecessor, h]
  simp only [Option.map_some']
  by_cases hc : blk.id = p
  · rw [if_pos hc]
    exact ⟨_, rfl, rfl⟩
  · rw [if_neg hc]
    exact ⟨_, rfl, rfl⟩

end SpirvBuilder

theorem condBranchInstruction_opCode (condition thenId falseId tw ew : Nat) :
    (condBranchInstruction condition thenId falseId tw ew).opCode =
      SpvOp.OpBranchConditional := rfl

theorem condBranchInstruction_take3 (condition thenId falseId tw ew : Nat) :
    (condBranchInstruction condition thenId falseId tw ew).operands.take 3 =
      [Operand.idOperand condition, Operand.idOperand thenId,
       Operand.idOperand falseId] := by
  unfold condBranchInstruction
  by_cases h : tw ≠ 0 ∨ ew ≠ 0
  · rw [if_pos h]
    rfl
  · rw [if_neg h]
    rfl

namespace IfBuilder

open SpirvBuilder

theorem findBlock_make_snd (cond ctrl tw ew : Nat) {s0 : SpirvBuilder}
    (hids : IdsBelow s0) (q : Nat) :
    (make cond ctrl tw ew s0).2.findBlock q =
      if q = s0.nextId then
        some { id := s0.nextId, instructions := [], predecessors := [] }
      else if q = s0.nextId + 1 then
        some { id := s0.nextId + 1, instructions := [], predecessors := [] }
      else s0.findBlock q := by
  rw [make_eq]
  show ((s0.makeBlock).2.makeBlock).2.findBlock q = _
  rw [findBlock_makeBlock (idsBelow_makeBlock hids), findBlock_makeBlock hids]
  simp only [makeBlock_nextId, makeBlock_fst]
  split_ifs <;> first | rfl | omega

theorem idsBelow_make_snd (cond ctrl tw ew : Nat) {s0 : SpirvBuilder}
    (hids : IdsBelow s0) : IdsBelow (make cond ctrl tw ew s0).2 := by
  rw [make_eq]
  exact idsBelow_makeBlock (idsBelow_makeBlock hids)

theorem findBlock_makeBeginElse_true_snd (ib : IfBuilder) {s : SpirvBuilder}
    (hids : IdsBelow s) (q : Nat) :
    (ib.makeBeginElse true s).2.findBlock q =
      if q = s.nextId then
        some { id := s.nextId, instructions := [], predecessors := [] }
      else (s.createBranch ib.mergeBlock).findBlock q := by
  rw [makeBeginElse_true_eq]
  show ((s.createBranch ib.mergeBlock).makeBlock).2.findBlock q = _
  rw [findBlock_makeBlock (idsBelow_createBranch hids)]
  rfl

theorem idsBelow_makeBeginElse_true_snd (ib : IfBuilder) {s : SpirvBuilder}
    (hids : IdsBelow s) : IdsBelow (ib.makeBeginElse true s).2 := by
  rw [makeBeginElse_true_eq]
  exact idsBelow_makeBlock (idsBelow_createBranch hids)

/-- The effect of the common tail of `makeEndIf` (selection merge,
conditional branch, predecessor registration, merge attachment) on the
header block's instruction sequence. -/
theorem endIfSuffix_header (jb : IfBuilder) (fb : Nat) {s : SpirvBuilder}
    {hdr1 : Block} (h : s.findBlock jb.headerBlock = some hdr1) :
    ∃ hblk : Block,
      ((((((s.setBuildPoint jb.headerBlock).createSelectionMerge jb.mergeBlock
          jb.control).addInstructionTo jb.headerBlock
         (condBranchInstruction jb.condition jb.thenBlock fb jb.thenWeight
           jb.elseWeight)).addPredecessor jb.thenBlock
        jb.headerBlock).addPredecessor fb jb.headerBlock).addBlock
        jb.mergeBlock |>.setBuildPoint jb.mergeBlock).findBlock jb.headerBlock =
          some hblk ∧
      hblk.instructions = hdr1.instructions ++
        [selectionMergeInstruction jb.mergeBlock jb.control,
         condBranchInstruction jb.condition jb.thenBlock fb jb.thenWeight
           jb.elseWeight] := by
  have h1 : (s.setBuildPoint jb.headerBlock).findBlock jb.headerBlock = some hdr1 := h
  have h2 : ((s.setBuildPoint jb.headerBlock).createSelectionMerge jb.mergeBlock
      jb.control).findBlock jb.headerBlock =
      some { hdr1 with instructions := hdr1.instructions ++
        [selectionMergeInstruction jb.mergeBlock jb.control] } := by
    rw [createSelectionMerge_eq]
    exact findBlock_addInstructionTo_self _ h1
  have h3 := findBlock_addInstructionTo_self
    (condBranchInstruction jb.condition jb.thenBlock fb jb.thenWeight jb.elseWeight) h2
  obtain ⟨b5, hb5, hi5⟩ :=
    findBlock_addPredecessor_keeps_instructions jb.thenBlock jb.headerBlock h3
  obtain ⟨b6, hb6, hi6⟩ :=
    findBlock_addPredecessor_keeps_instructions fb jb.headerBlock hb5
  refine ⟨b6, hb6, ?_⟩
  rw [hi6, hi5]
  simp

end IfBuilder

/-! ## The claims -/

/-- C6: on the conditional branch `makeEndIf` emits at the header block, the
two weight immediates (thenWeight then elseWeight, in that order) are
present iff at least one weight is non-zero; with both zero the operand list
is exactly condition, true-target, false-target. -/
theorem makeEndIf_branch_weights (ib : IfBuilder) (btm : Bool) (b : SpirvBuilder)
    (hdr : Block) (hhdr : b.findBlock ib.headerBlock = some hdr)
    (hbp : btm = true → b.buildPoint ≠ ib.headerBlock) :
    ∃ hblk : Block,
      (ib.makeEndIf btm b).2.findBlock ib.headerBlock = some hblk ∧
      hblk.instructions.getLast? =
        some (condBranchInstruction ib.condition ib.thenBlock
          (ib.elseBlock.getD ib.mergeBlock) ib.thenWeight ib.elseWeight) ∧
      ((ib.thenWeight ≠ 0 ∨ ib.elseWeight ≠ 0) →
        (condBranchInstruction ib.condition ib.thenBlock
            (ib.elseBlock.getD ib.mergeBlock) ib.thenWeight ib.elseWeight).operands =
          [Operand.idOperand ib.condition, Operand.idOperand ib.thenBlock,
           Operand.idOperand (ib.elseBlock.getD ib.mergeBlock),
           Operand.immediate ib.thenWeight, Operand.immediate ib.elseWeight]) ∧
      (ib.thenWeight = 0 → ib.elseWeight = 0 →
        (condBranchInstruction ib.condition ib.thenBlock
            (ib.elseBlock.getD ib.mergeBlock) ib.thenWeight ib.elseWeight).operands =
          [Operand.idOperand ib.condition, Operand.idOperand ib.thenBlock,
           Operand.idOperand (ib.elseBlock.getD ib.mergeBlock)]) := by
  cases btm with
  | false =>
    rw [IfBuilder.makeEndIf_false_eq]
    obtain ⟨hblk, hfind, hinstr⟩ :=
      IfBuilder.endIfSuffix_header ib (ib.elseBlock.getD ib.mergeBlock) hhdr
    refine ⟨hblk, hfind, ?_, ?_, ?_⟩
    · rw [hinstr]
      exact getLast?_append_pair _ _ _
    · intro h
      exact condBranchInstruction_operands_nonzero _ _ _ h
    · intro h1 h2
      exact condBranchInstruction_operands_zero _ _ _ h1 h2
  | true =>
    have hne : ib.headerBlock ≠ b.buildPoint := (hbp rfl).symm
    have hstep1 : (b.addInstructionTo b.buildPoint
        (SpirvBuilder.branchInstruction ib.mergeBlock)).findBlock ib.headerBlock =
        some hdr := by
      rw [SpirvBuilder.findBlock_addInstructionTo_ne _ hne]
      exact hhdr
    obtain ⟨hdr1, hfind1, hinstr1⟩ :=
      SpirvBuilder.findBlock_addPredecessor_keeps_instructions
        ib.mergeBlock b.buildPoint hstep1
    have hfind1' : (b.createBranch ib.mergeBlock).findBlock ib.headerBlock =
        some hdr1 := by
      rw [SpirvBuilder.createBranch_eq]
      exact hfind1
    cases he : ib.elseBlock with
    | none =>
      rw [IfBuilder.makeEndIf_true_none_eq ib b he]
      obtain ⟨hblk, hfind, hinstr⟩ :=
        IfBuilder.endIfSuffix_header ib ib.mergeBlock hfind1'
      rw [he]
      refine ⟨hblk, hfind, ?_, ?_, ?_⟩
      · rw [hinstr]
        exact getLast?_append_pair _ _ _
      · intro h
        exact condBranchInstruction_operands_nonzero _ _ _ h
      · intro h1 h2
        exact condBranchInstruction_operands_zero _ _ _ h1 h2
    | some e =>
      rw [IfBuilder.makeEndIf_true_some_eq ib e b he]
      obtain ⟨hblk, hfind, hinstr⟩ :=
        IfBuilder.endIfSuffix_header ib e hfind1'
      rw [he]
      refine ⟨hblk, hfind, ?_, ?_, ?_⟩
      · rw [hinstr]
        exact getLast?_append_pair _ _ _
      · intro h
        exact condBranchInstruction_operands_nonzero _ _ _ h
      · intro h1 h2
        exact condBranchInstruction_operands_zero _ _ _ h1 h2

namespace SpirvBuilder

theorem createUnaryBuiltinCall_eq (b : SpirvBuilder) (rt bi ep o1 : Nat) :
    b.createUnaryBuiltinCall rt bi ep o1 =
      (b.nextId,
       ({ b with nextId := b.nextId + 1,
                 types := (b.nextId, rt) :: b.types }).addInstructionTo b.buildPoint
         { resultId := some b.nextId, typeId := some rt, opCode := SpvOp.OpExtInst,
           operands := [Operand.idOperand bi, Operand.immediate ep,
                        Operand.idOperand o1] }) := rfl

theorem createBinBuiltinCall_eq (b : SpirvBuilder) (rt bi ep o1 o2 : Nat) :
    b.createBinBuiltinCall rt bi ep o1 o2 =
      (b.nextId,
       ({ b with nextId := b.nextId + 1,
                 types := (b.nextId, rt) :: b.types }).addInstructionTo b.buildPoint
         { resultId := some b.nextId, typeId := some rt, opCode := SpvOp.OpExtInst,
           operands := [Operand.idOperand bi, Operand.immediate ep,
                        Operand.idOperand o1, Operand.idOperand o2] }) := rfl

theorem createTriBuiltinCall_eq (b : SpirvBuilder) (rt bi ep o1 o2 o3 : Nat) :
    b.createTriBuiltinCall rt bi ep o1 o2 o3 =
      (b.nextId,
       ({ b with nextId := b.nextId + 1,
                 types := (b.nextId, rt) :: b.types }).addInstructionTo b.buildPoint
         { resultId := some b.nextId, typeId := some rt, opCode := SpvOp.OpExtInst,
           operands := [Operand.idOperand bi, Operand.immediate ep,
                        Operand.idOperand o1, Operand.idOperand o2,
                        Operand.idOperand o3] }) := rfl

end SpirvBuilder

/-- A concrete one-block emitter state (header block id 1, next fresh id 2)
with the spec-constant flag set, used in witnesses. -/
def sampleOn : SpirvBuilder :=
  { nextId := 2, buildPoint := 1,
    blocks := [{ id := 1, instructions := [], predecessors := [] }],
    functionBlocks := [1], generatingOpCodeForSpecConst := true,
    specConstants := [], types := [], decorations := [] }

/-- The same concrete emitter state with the spec-constant flag clear. -/
def sampleOff : SpirvBuilder :=
  { sampleOn with generatingOpCodeForSpecConst := false }

/-- A concrete closed structured-if state (header 1, then 2, merge 3, no
else), as left behind by `makeEndIf`. -/
def sampleIfBuilder : IfBuilder :=
  { condition := 9, control := 0, thenWeight := 0, elseWeight := 0,
    thenBlock := 2, elseBlock := none, mergeBlock := 3, headerBlock := 1,
    thenPhiParent := 2, elsePhiParent := 1, currentBranch := Branch.kMerge }

/-- C7: the structured-if phase only moves forward Then → Else → Merged:
construction starts in `kThen`; `makeBeginElse` moves the phase to `kElse`
and its debug assertion (`beginElseAllowed`) accepts exactly phase `kThen`;
`makeEndIf` moves the phase to `kMerge`, its assertion (`endIfAllowed`)
accepts exactly phases `kThen` and `kElse`, and afterwards the build point is
the merge block.  In particular `makeBeginElse` called twice, or after
`makeEndIf`, fails its assertion rather than silently doing nothing. -/
theorem ifBuilder_phase_machine (cond ctrl tw ew : Nat) (b : SpirvBuilder)
    (ib : IfBuilder) (btm : Bool) :
    ((IfBuilder.make cond ctrl tw ew b).1.currentBranch = Branch.kThen ∧
     (IfBuilder.make cond ctrl tw ew b).1.beginElseAllowed = true ∧
     (IfBuilder.make cond ctrl tw ew b).1.endIfAllowed = true) ∧
    ((ib.makeBeginElse btm b).1.currentBranch = Branch.kElse ∧
     (ib.makeBeginElse btm b).1.beginElseAllowed = false ∧
     (ib.makeBeginElse btm b).1.endIfAllowed = true) ∧
    ((ib.makeEndIf btm b).1.currentBranch = Branch.kMerge ∧
     (ib.makeEndIf btm b).1.beginElseAllowed = false ∧
     (ib.makeEndIf btm b).1.endIfAllowed = false ∧
     (ib.makeEndIf btm b).2.buildPoint = ib.mergeBlock) ∧
    (∀ jb : IfBuilder, jb.beginElseAllowed = true ↔
      jb.currentBranch = Branch.kThen) ∧
    (∀ jb : IfBuilder, jb.endIfAllowed = true ↔
      (jb.currentBranch = Branch.kThen ∨ jb.currentBranch = Branch.kElse)) := by
  refine ⟨⟨rfl, rfl, rfl⟩, ?_, ?_, ?_, ?_⟩
  · cases btm
    · rw [IfBuilder.makeBeginElse_false_eq]
      exact ⟨rfl, rfl, rfl⟩
    · rw [IfBuilder.makeBeginElse_true_eq]
      exact ⟨rfl, rfl, rfl⟩
  · cases btm
    · rw [IfBuilder.makeEndIf_false_eq]
      exact ⟨rfl, rfl, rfl, rfl⟩
    · cases he : ib.elseBlock with
      | none =>
        rw [IfBuilder.makeEndIf_true_none_eq ib b he]
        exact ⟨rfl, rfl, rfl, rfl⟩
      | some e =>
        rw [IfBuilder.makeEndIf_true_some_eq ib e b he]
        exact ⟨rfl, rfl, rfl, rfl⟩
  · intro jb
    unfold IfBuilder.beginElseAllowed
    simp
  · intro jb
    unfold IfBuilder.endIfAllowed
    simp

/-- C5: every emission operation — `createQuadOp` and the three builtin-call
emitters — advances the unique-id counter by exactly one per call, on both
the runtime-emission and the constant-folding path. -/
theorem emission_increments_id_once (b : SpirvBuilder) (op : SpvOp)
    (ty o1 o2 o3 o4 rt bi ep : Nat) :
    (b.createQuadOp op ty o1 o2 o3 o4).2.nextId = b.nextId + 1 ∧
    (b.createUnaryBuiltinCall rt bi ep o1).2.nextId = b.nextId + 1 ∧
    (b.createBinBuiltinCall rt bi ep o1 o2).2.nextId = b.nextId + 1 ∧
    (b.createTriBuiltinCall rt bi ep o1 o2 o3).2.nextId = b.nextId + 1 :=
  ⟨SpirvBuilder.createQuadOp_snd_nextId b op ty o1 o2 o3 o4, rfl, rfl, rfl⟩

/-- C4: a `createQuadOp` call made with the spec-constant flag set appends
no instruction to any block — the whole block table, and in particular the
current build point's block, is unchanged. -/
theorem createQuadOp_specconst_no_append (b : SpirvBuilder) (op : SpvOp)
    (ty o1 o2 o3 o4 : Nat) (h : b.generatingOpCodeForSpecConst = true) :
    (b.createQuadOp op ty o1 o2 o3 o4).2.blocks = b.blocks ∧
    (b.createQuadOp op ty o1 o2 o3 o4).2.findBlock b.buildPoint =
      b.findBlock b.buildPoint := by
  rw [SpirvBuilder.createQuadOp_on _ _ _ _ _ _ _ h]
  exact ⟨rfl, rfl⟩

/-- Witness for C4 at the concrete state `sampleOn`. -/
theorem createQuadOp_specconst_no_append_witness :
    (sampleOn.createQuadOp (SpvOp.otherOp 17) 7 2 3 4 5).2.blocks =
      sampleOn.blocks ∧
    (sampleOn.createQuadOp (SpvOp.otherOp 17) 7 2 3 4 5).2.findBlock
        sampleOn.buildPoint = sampleOn.findBlock sampleOn.buildPoint :=
  createQuadOp_specconst_no_append sampleOn (SpvOp.otherOp 17) 7 2 3 4 5 rfl

/-- C3: `createQuadOp` takes exactly one of two paths, chosen solely by the
emitter's spec-constant mode: with the flag clear it returns a fresh result
id and appends the opcode/type/four-id-operand instruction to the current
build point, leaving every other block and the constant-expression table
unchanged; with the flag set it appends the equivalent constant-expression
record (same opcode and operands) to the constant table, changes no block,
and returns that record's id. -/
theorem createQuadOp_two_paths (b : SpirvBuilder) (op : SpvOp)
    (ty o1 o2 o3 o4 : Nat) (blk : Block)
    (hblk : b.findBlock b.buildPoint = some blk) :
    (b.generatingOpCodeForSpecConst = false →
      (b.createQuadOp op ty o1 o2 o3 o4).1 = b.nextId ∧
      (b.createQuadOp op ty o1 o2 o3 o4).2.findBlock b.buildPoint =
        some { blk with instructions := blk.instructions ++
          [SpirvBuilder.quadOpInstruction b.nextId op ty o1 o2 o3 o4] } ∧
      (∀ q : Nat, q ≠ b.buildPoint →
        (b.createQuadOp op ty o1 o2 o3 o4).2.findBlock q = b.findBlock q) ∧
      (b.createQuadOp op ty o1 o2 o3 o4).2.specConstants = b.specConstants) ∧
    (b.generatingOpCodeForSpecConst = true →
      (b.createQuadOp op ty o1 o2 o3 o4).1 = b.nextId ∧
      (b.createQuadOp op ty o1 o2 o3 o4).2.blocks = b.blocks ∧
      (b.createQuadOp op ty o1 o2 o3 o4).2.specConstants = b.specConstants ++
        [{ resultId := b.nextId, typeId := ty, opCode := op,
           idOperands := [o1, o2, o3, o4], literals := [] }]) := by
  constructor
  · intro h
    refine ⟨SpirvBuilder.createQuadOp_fst _ _ _ _ _ _ _,
      SpirvBuilder.createQuadOp_off_findBlock_bp h hblk,
      fun q hq => SpirvBuilder.createQuadOp_off_findBlock_ne h hq, ?_⟩
    rw [SpirvBuilder.createQuadOp_off _ _ _ _ _ _ _ h]
    rfl
  · intro h
    rw [SpirvBuilder.createQuadOp_on _ _ _ _ _ _ _ h]
    exact ⟨rfl, rfl, rfl⟩

/-- Witness for C3: the runtime path at the concrete state `sampleOff`
appends the phi-shaped quad op to block 1. -/
theorem createQuadOp_two_paths_witness :
    (sampleOff.createQuadOp (SpvOp.otherOp 17) 7 2 3 4 5).2.findBlock 1 =
      some { id := 1,
             instructions :=
               [SpirvBuilder.quadOpInstruction 2 (SpvOp.otherOp 17) 7 2 3 4 5],
             predecessors := [] } :=
  ((createQuadOp_two_paths sampleOff (SpvOp.otherOp 17) 7 2 3 4 5
    { id := 1, instructions := [], predecessors := [] } rfl).1 rfl).2.1

/-- C8: each builtin-call emitter builds an `OpExtInst` with a fresh result
id and the given result type, whose operands are the extension-set id, the
entry-point index as an immediate, then the value ids in argument order; it
always appends to the current build point and returns the result id, and
never diverts to the constant-folding path (the constant table is unchanged)
regardless of the spec-constant flag. -/
theorem builtin_calls_emit_ext_inst (b : SpirvBuilder)
    (rt bi ep o1 o2 o3 : Nat) (blk : Block)
    (hblk : b.findBlock b.buildPoint = some blk) :
    ((b.createUnaryBuiltinCall rt bi ep o1).1 = b.nextId ∧
     (b.createUnaryBuiltinCall rt bi ep o1).2.findBlock b.buildPoint =
       some { blk with instructions := blk.instructions ++
         [{ resultId := some b.nextId, typeId := some rt,
            opCode := SpvOp.OpExtInst,
            operands := [Operand.idOperand bi, Operand.immediate ep,
                         Operand.idOperand o1] }] } ∧
     (b.createUnaryBuiltinCall rt bi ep o1).2.specConstants =
       b.specConstants) ∧
    ((b.createBinBuiltinCall rt bi ep o1 o2).1 = b.nextId ∧
     (b.createBinBuiltinCall rt bi ep o1 o2).2.findBlock b.buildPoint =
       some { blk with instructions := blk.instructions ++
         [{ resultId := some b.nextId, typeId := some rt,
            opCode := SpvOp.OpExtInst,
            operands := [Operand.idOperand bi, Operand.immediate ep,
                         Operand.idOperand o1, Operand.idOperand o2] }] } ∧
     (b.createBinBuiltinCall rt bi ep o1 o2).2.specConstants =
       b.specConstants) ∧
    ((b.createTriBuiltinCall rt bi ep o1 o2 o3).1 = b.nextId ∧
     (b.createTriBuiltinCall rt bi ep o1 o2 o3).2.findBlock b.buildPoint =
       some { blk with instructions := blk.instructions ++
         [{ resultId := some b.nextId, typeId := some rt,
            opCode := SpvOp.OpExtInst,
            operands := [Operand.idOperand bi, Operand.immediate ep,
                         Operand.idOperand o1, Operand.idOperand o2,
                         Operand.idOperand o3] }] } ∧
     (b.createTriBuiltinCall rt bi ep o1 o2 o3).2.specConstants =
       b.specConstants) := by
  refine ⟨⟨rfl, ?_, rfl⟩, ⟨rfl, ?_, rfl⟩, ⟨rfl, ?_, rfl⟩⟩
  · rw [SpirvBuilder.createUnaryBuiltinCall_eq]
    exact SpirvBuilder.findBlock_addInstructionTo_self _ hblk
  · rw [SpirvBuilder.createBinBuiltinCall_eq]
    exact SpirvBuilder.findBlock_addInstructionTo_self _ hblk
  · rw [SpirvBuilder.createTriBuiltinCall_eq]
    exact SpirvBuilder.findBlock_addInstructionTo_self _ hblk

/-- Witness for C8: at the concrete state `sampleOn` — the spec-constant
flag is set, yet the unary builtin call still appends to block 1. -/
theorem builtin_calls_emit_ext_inst_witness :
    (sampleOn.createUnaryBuiltinCall 7 11 13 5).2.findBlock 1 =
      some { id := 1,
             instructions :=
               [{ resultId := some 2, typeId := some 7,
                  opCode := SpvOp.OpExtInst,
                  operands := [Operand.idOperand 11, Operand.immediate 13,
                               Operand.idOperand 5] }],
             predecessors := [] } :=
  (builtin_calls_emit_ext_inst sampleOn 7 11 13 5 6 8
    { id := 1, instructions := [], predecessors := [] } rfl).1.2.1

/-- C9: if the spec-constant flag is set when `createMergePhi` is called,
the phi is diverted through `createQuadOp`'s constant-folding branch: no
block changes (in particular the merge block's instruction sequence), and
the returned id names the constant-expression record appended for the
diverted `OpPhi`. -/
theorem createMergePhi_specconst_divert (ib : IfBuilder) (a c : Nat)
    (b : SpirvBuilder) (h : b.generatingOpCodeForSpecConst = true) :
    (ib.createMergePhi a c b).2.blocks = b.blocks ∧
    (ib.createMergePhi a c b).2.findBlock ib.mergeBlock =
      b.findBlock ib.mergeBlock ∧
    (ib.createMergePhi a c b).1 = b.nextId ∧
    (ib.createMergePhi a c b).2.specConstants = b.specConstants ++
      [{ resultId := b.nextId, typeId := b.getTypeId a, opCode := SpvOp.OpPhi,
         idOperands := [a, ib.thenPhiParent, c, ib.elsePhiParent],
         literals := [] }] := by
  unfold IfBuilder.createMergePhi
  rw [SpirvBuilder.createQuadOp_on _ _ _ _ _ _ _ h]
  exact ⟨rfl, rfl, rfl, rfl⟩

/-- Witness for C9 at the concrete states `sampleIfBuilder` and `sampleOn`. -/
theorem createMergePhi_specconst_divert_witness :
    (sampleIfBuilder.createMergePhi 5 6 sampleOn).2.specConstants =
      sampleOn.specConstants ++
        [{ resultId := 2, typeId := sampleOn.getTypeId 5, opCode := SpvOp.OpPhi,
           idOperands := [5, 2, 6, 1], literals := [] }] :=
  (createMergePhi_specconst_divert sampleIfBuilder 5 6 sampleOn rfl).2.2.2

/-- C2: once `makeEndIf` has completed — the build point is the merge block
and the emitter is in runtime mode — `createMergePhi(a, c)` appends to the
merge block a phi whose declared type is `a`'s type and whose operands are
exactly `(a, thenPhiParent, c, elsePhiParent)`, and returns the fresh
result id. -/
theorem createMergePhi_emits_phi (ib : IfBuilder) (a c : Nat)
    (b : SpirvBuilder) (blk : Block)
    (hmode : b.generatingOpCodeForSpecConst = false)
    (hbp : b.buildPoint = ib.mergeBlock)
    (hblk : b.findBlock ib.mergeBlock = some blk) :
    (ib.createMergePhi a c b).1 = b.nextId ∧
    (ib.createMergePhi a c b).2.findBlock ib.mergeBlock =
      some { blk with instructions := blk.instructions ++
        [{ resultId := some b.nextId, typeId := some (b.getTypeId a),
           opCode := SpvOp.OpPhi,
           operands := [Operand.idOperand a, Operand.idOperand ib.thenPhiParent,
                        Operand.idOperand c,
                        Operand.idOperand ib.elsePhiParent] }] } := by
  unfold IfBuilder.createMergePhi
  refine ⟨SpirvBuilder.createQuadOp_fst _ _ _ _ _ _ _, ?_⟩
  have hblk2 : b.findBlock b.buildPoint = some blk := by
    rw [hbp]
    exact hblk
  have h := @SpirvBuilder.createQuadOp_off_findBlock_bp b SpvOp.OpPhi
    (b.getTypeId a) a ib.thenPhiParent c ib.elsePhiParent blk hmode hblk2
  rw [hbp] at h
  exact h

/-- The closed concrete no-else construct (header 1, then 2, merge 3)
produced by driving `make` then `makeEndIf` from `sampleOff`; used in
witnesses. -/
def sampleClosed : IfBuilder × SpirvBuilder :=
  (IfBuilder.make 9 0 0 0 sampleOff).1.makeEndIf true
    (IfBuilder.make 9 0 0 0 sampleOff).2

/-- Witness for C2: on the concrete closed construct, `createMergePhi 5 6`
appends the phi `(5, then-parent 2, 6, header-parent 1)` of type 0 to merge
block 3. -/
theorem createMergePhi_emits_phi_witness :
    (sampleClosed.1.createMergePhi 5 6 sampleClosed.2).2.findBlock 3 =
      some { id := 3,
             instructions := [
               { resultId := some 4, typeId := some 0,
                 opCode := SpvOp.OpPhi,
                 operands := [Operand.idOperand 5, Operand.idOperand 2,
                              Operand.idOperand 6, Operand.idOperand 1] }],
             predecessors := [2, 1] } :=
  (createMergePhi_emits_phi sampleClosed.1 5 6 sampleClosed.2
    { id := 3, instructions := [], predecessors := [2, 1] }
    (by decide) (by decide) (by decide)).2

/-- The concrete open construct with a then-weight hint, and the state in
its then-region; used by the C6 witness. -/
def sampleWeighted : IfBuilder × SpirvBuilder :=
  IfBuilder.make 9 0 1 0 sampleOff

/-- Witness for C6: on the concrete weighted construct (thenWeight 1), the
header's conditional branch carries the weight operands. -/
theorem makeEndIf_branch_weights_witness :
    ∃ hblk : Block,
      (sampleWeighted.1.makeEndIf true sampleWeighted.2).2.findBlock
          sampleWeighted.1.headerBlock = some hblk ∧
      hblk.instructions.getLast? =
        some (condBranchInstruction sampleWeighted.1.condition
          sampleWeighted.1.thenBlock
          (sampleWeighted.1.elseBlock.getD sampleWeighted.1.mergeBlock)
          sampleWeighted.1.thenWeight sampleWeighted.1.elseWeight) ∧
      ((sampleWeighted.1.thenWeight ≠ 0 ∨ sampleWeighted.1.elseWeight ≠ 0) →
        (condBranchInstruction sampleWeighted.1.condition
            sampleWeighted.1.thenBlock
            (sampleWeighted.1.elseBlock.getD sampleWeighted.1.mergeBlock)
            sampleWeighted.1.thenWeight sampleWeighted.1.elseWeight).operands =
          [Operand.idOperand sampleWeighted.1.condition,
           Operand.idOperand sampleWeighted.1.thenBlock,
           Operand.idOperand
             (sampleWeighted.1.elseBlock.getD sampleWeighted.1.mergeBlock),
           Operand.immediate sampleWeighted.1.thenWeight,
           Operand.immediate sampleWeighted.1.elseWeight]) ∧
      (sampleWeighted.1.thenWeight = 0 → sampleWeighted.1.elseWeight = 0 →
        (condBranchInstruction sampleWeighted.1.condition
            sampleWeighted.1.thenBlock
            (sampleWeighted.1.elseBlock.getD sampleWeighted.1.mergeBlock)
            sampleWeighted.1.thenWeight sampleWeighted.1.elseWeight).operands =
          [Operand.idOperand sampleWeighted.1.condition,
           Operand.idOperand sampleWeighted.1.thenBlock,
           Operand.idOperand
             (sampleWeighted.1.elseBlock.getD sampleWeighted.1.mergeBlock)]) :=
  makeEndIf_branch_weights sampleWeighted.1 true sampleWeighted.2
    { id := 1, instructions := [], predecessors := [] } (by decide) (by decide)

/-- C10: `makeBeginElse false` leaves `thenPhiParent` unchanged; the
constructor initializes it to the header block's id, and `makeEndIf` on a
construct that has an else block writes only `elsePhiParent` — so a
construct whose then-region never branched to the merge still has
`thenPhiParent` equal to the header block id, and its `createMergePhi`
passes the header block, not the then-region's final block, as the
then-value's phi parent. -/
theorem makeBeginElse_false_keeps_then_phi_parent (cond ctrl tw ew : Nat)
    (b s2 s4 s : SpirvBuilder) (ib : IfBuilder) (a c : Nat) :
    (ib.makeBeginElse false s2).1.thenPhiParent = ib.thenPhiParent ∧
    (IfBuilder.make cond ctrl tw ew b).1.thenPhiParent = b.buildPoint ∧
    (IfBuilder.make cond ctrl tw ew b).1.headerBlock = b.buildPoint ∧
    (((IfBuilder.make cond ctrl tw ew b).1.makeBeginElse false s2).1.makeEndIf
        true s4).1.thenPhiParent = b.buildPoint ∧
    ((((IfBuilder.make cond ctrl tw ew b).1.makeBeginElse false s2).1.makeEndIf
        true s4).1.createMergePhi a c s =
      s.createQuadOp SpvOp.OpPhi (s.getTypeId a) a b.buildPoint c
        ((((IfBuilder.make cond ctrl tw ew b).1.makeBeginElse
            false s2).1.makeEndIf true s4).1.elsePhiParent)) :=
  ⟨by rw [IfBuilder.makeBeginElse_false_eq], rfl, rfl, rfl, rfl⟩

/-! ## The structured-if shape (C1) -/

/-- `insts` contains exactly one unconditional branch, which is its last
instruction and targets `target`. -/
def EndsInSoleBranchTo (insts : List Instruction) (target : Nat) : Prop :=
  (insts.filter fun i => i.opCode == SpvOp.OpBranch).length = 1 ∧
  insts.getLast? = some (SpirvBuilder.branchInstruction target)

/-- `insts` contains exactly one conditional branch, which is its last
instruction, branches on `condition`, and has true-target `tTarget` and
false-target `fTarget`. -/
def EndsInSoleCondBranch (insts : List Instruction)
    (condition tTarget fTarget : Nat) : Prop :=
  (insts.filter fun i => i.opCode == SpvOp.OpBranchConditional).length = 1 ∧
  ∃ i : Instruction, insts.getLast? = some i ∧
    i.opCode = SpvOp.OpBranchConditional ∧
    i.operands.take 3 = [Operand.idOperand condition, Operand.idOperand tTarget,
                         Operand.idOperand fTarget]

/-- Drive one structured-if with an else region: construct, emit `ops1` in
the then-region, `makeBeginElse true`, emit `ops2` in the else-region, and
`makeEndIf true`. -/
def runIfElse (cond ctrl tw ew : Nat) (ops1 ops2 : List QuadCall)
    (s0 : SpirvBuilder) : IfBuilder × SpirvBuilder :=
  ((IfBuilder.make cond ctrl tw ew s0).1.makeBeginElse true
      (emitQuads ops1 (IfBuilder.make cond ctrl tw ew s0).2)).1.makeEndIf true
    (emitQuads ops2
      ((IfBuilder.make cond ctrl tw ew s0).1.makeBeginElse true
        (emitQuads ops1 (IfBuilder.make cond ctrl tw ew s0).2)).2)

/-- Drive one structured-if without an else region: construct, emit `ops1`
in the then-region, and `makeEndIf true`. -/
def runIfOnly (cond ctrl tw ew : Nat) (ops1 : List QuadCall)
    (s0 : SpirvBuilder) : IfBuilder × SpirvBuilder :=
  (IfBuilder.make cond ctrl tw ew s0).1.makeEndIf true
    (emitQuads ops1 (IfBuilder.make cond ctrl tw ew s0).2)


/-- Frame fact for the closing tail of `makeEndIf`: only the merge block is
appended to the function's block order. -/
theorem endIfChain_functionBlocks (s : SpirvBuilder)
    (header merge ctrl thenB fb : Nat) (condBr : Instruction) :
    (((((((s.setBuildPoint header).createSelectionMerge merge
        ctrl).addInstructionTo header condBr).addPredecessor thenB
        header).addPredecessor fb header).addBlock merge).setBuildPoint
        merge).functionBlocks = s.functionBlocks ++ [merge] := rfl

/-- The closing tail of `makeEndIf` leaves a non-header block's instruction
sequence unchanged, and extends its predecessors with the header exactly
when the block is a target of the conditional branch. -/
theorem endIfChain_findBlock_ne (header merge ctrl thenB fb q : Nat)
    (condBr : Instruction) {s : SpirvBuilder} {blk : Block}
    (hfind : s.findBlock q = some blk) (hqh : q ≠ header) :
    (((((((s.setBuildPoint header).createSelectionMerge merge
        ctrl).addInstructionTo header condBr).addPredecessor thenB
        header).addPredecessor fb header).addBlock merge).setBuildPoint
        merge).findBlock q =
      some { blk with predecessors := blk.predecessors ++
        ((if q = thenB then [header] else []) ++
         (if q = fb then [header] else [])) } := by
  have hid : blk.id = q := SpirvBuilder.findBlock_id hfind
  have h1 : ((s.setBuildPoint header).createSelectionMerge merge ctrl).findBlock q
      = some blk := by
    rw [SpirvBuilder.createSelectionMerge_eq,
      SpirvBuilder.findBlock_addInstructionTo_ne _
        (show q ≠ (s.setBuildPoint header).buildPoint by
          rw [SpirvBuilder.setBuildPoint_buildPoint]; exact hqh)]
    exact hfind
  have h2 := (SpirvBuilder.findBlock_addInstructionTo_ne condBr hqh).trans h1
  rw [SpirvBuilder.setBuildPoint_findBlock, SpirvBuilder.addBlock_findBlock,
    SpirvBuilder.findBlock_addPredecessor, SpirvBuilder.findBlock_addPredecessor,
    h2]
  simp only [Option.map_some']
  obtain ⟨bid, binstr, bpred⟩ := blk
  have hid2 : bid = q := hid
  subst hid2
  by_cases ht : bid = thenB
  · subst ht
    by_cases hf : bid = fb
    · subst hf
      simp
    · simp [hf]
  · by_cases hf : bid = fb
    · subst hf
      simp [ht]
    · simp [ht, hf]

/-- The closing tail of `makeEndIf` appends exactly the selection-merge
instruction and the conditional branch to the header block. -/
theorem endIfChain_findBlock_header (merge ctrl thenB fb : Nat)
    (condBr : Instruction) {s : SpirvBuilder} {header : Nat} {hdr1 : Block}
    (hfind : s.findBlock header = some hdr1) :
    ∃ hblk : Block,
      (((((((s.setBuildPoint header).createSelectionMerge merge
          ctrl).addInstructionTo header condBr).addPredecessor thenB
          header).addPredecessor fb header).addBlock merge).setBuildPoint
          merge).findBlock header = some hblk ∧
      hblk.instructions = hdr1.instructions ++
        [SpirvBuilder.selectionMergeInstruction merge ctrl, condBr] := by
  have h1 : ((s.setBuildPoint header).createSelectionMerge merge
      ctrl).findBlock header =
      some { hdr1 with instructions := hdr1.instructions ++
        [SpirvBuilder.selectionMergeInstruction merge ctrl] } := by
    rw [SpirvBuilder.createSelectionMerge_eq]
    exact SpirvBuilder.findBlock_addInstructionTo_self _ hfind
  have h2 := SpirvBuilder.findBlock_addInstructionTo_self condBr h1
  obtain ⟨b5, hb5, hi5⟩ :=
    SpirvBuilder.findBlock_addPredecessor_keeps_instructions thenB header h2
  obtain ⟨b6, hb6, hi6⟩ :=
    SpirvBuilder.findBlock_addPredecessor_keeps_instructions fb header hb5
  refine ⟨b6, hb6, ?_⟩
  rw [hi6, hi5]
  simp

theorem runIfElse_spec (cond ctrl tw ew : Nat) (ops1 ops2 : List QuadCall)
    (s0 : SpirvBuilder) (hdr : Block)
    (hmode : s0.generatingOpCodeForSpecConst = false)
    (hids : SpirvBuilder.IdsBelow s0)
    (hhdr : s0.findBlock s0.buildPoint = some hdr)
    (hops1 : ∀ q ∈ ops1, q.op ≠ SpvOp.OpBranch)
    (hops2 : ∀ q ∈ ops2, q.op ≠ SpvOp.OpBranch)
    (hnocb : ∀ i ∈ hdr.instructions, i.opCode ≠ SpvOp.OpBranchConditional) :
    ∃ e : Nat,
      (runIfElse cond ctrl tw ew ops1 ops2 s0).1.elseBlock = some e ∧
      (runIfElse cond ctrl tw ew ops1 ops2 s0).2.functionBlocks =
        s0.functionBlocks ++
          [(runIfElse cond ctrl tw ew ops1 ops2 s0).1.thenBlock, e,
           (runIfElse cond ctrl tw ew ops1 ops2 s0).1.mergeBlock] ∧
      (∃ tblk : Block,
        (runIfElse cond ctrl tw ew ops1 ops2 s0).2.findBlock
          (runIfElse cond ctrl tw ew ops1 ops2 s0).1.thenBlock = some tblk ∧
        EndsInSoleBranchTo tblk.instructions
          (runIfElse cond ctrl tw ew ops1 ops2 s0).1.mergeBlock ∧
        (runIfElse cond ctrl tw ew ops1 ops2 s0).1.headerBlock ∈
          tblk.predecessors) ∧
      (∃ eblk : Block,
        (runIfElse cond ctrl tw ew ops1 ops2 s0).2.findBlock e = some eblk ∧
        EndsInSoleBranchTo eblk.instructions
          (runIfElse cond ctrl tw ew ops1 ops2 s0).1.mergeBlock ∧
        (runIfElse cond ctrl tw ew ops1 ops2 s0).1.headerBlock ∈
          eblk.predecessors) ∧
      (∃ hblk : Block,
        (runIfElse cond ctrl tw ew ops1 ops2 s0).2.findBlock
          (runIfElse cond ctrl tw ew ops1 ops2 s0).1.headerBlock = some hblk ∧
        EndsInSoleCondBranch hblk.instructions cond
          (runIfElse cond ctrl tw ew ops1 ops2 s0).1.thenBlock e) := by
  unfold runIfElse
  set p1 := IfBuilder.make cond ctrl tw ew s0 with hp1
  set s2 := emitQuads ops1 p1.2 with hs2
  set p2 := p1.1.makeBeginElse true s2 with hp2
  set s4 := emitQuads ops2 p2.2 with hs4
  set p3 := p2.1.makeEndIf true s4 with hp3
  have hdrid : hdr.id = s0.buildPoint := SpirvBuilder.findBlock_id hhdr
  have hHlt : s0.buildPoint < s0.nextId := by
    have h := hids hdr (SpirvBuilder.findBlock_mem hhdr)
    rw [hdrid] at h
    exact h
  -- construction
  have hib1 : p1.1 = IfBuilder.mk cond ctrl tw ew s0.nextId none
      (s0.nextId + 1) s0.buildPoint s0.buildPoint s0.buildPoint
      Branch.kThen := by
    rw [hp1, IfBuilder.make_eq]
  have hs1bp : p1.2.buildPoint = s0.nextId := by
    rw [hp1, IfBuilder.make_eq]
    rfl
  have hs1n : p1.2.nextId = s0.nextId + 2 := by
    rw [hp1, IfBuilder.make_eq]
    rfl
  have hs1fb : p1.2.functionBlocks = s0.functionBlocks ++ [s0.nextId] := by
    rw [hp1, IfBuilder.make_eq]
    rfl
  have hs1mode : p1.2.generatingOpCodeForSpecConst = false := by
    rw [hp1, IfBuilder.make_eq]
    exact hmode
  have hs1ids : SpirvBuilder.IdsBelow p1.2 := by
    rw [hp1]
    exact IfBuilder.idsBelow_make_snd cond ctrl tw ew hids
  have hs1find : ∀ q : Nat, p1.2.findBlock q =
      if q = s0.nextId then
        some { id := s0.nextId, instructions := [], predecessors := [] }
      else if q = s0.nextId + 1 then
        some { id := s0.nextId + 1, instructions := [], predecessors := [] }
      else s0.findBlock q := by
    intro q
    rw [hp1]
    exact IfBuilder.findBlock_make_snd cond ctrl tw ew hids q
  -- then-region emission
  have hs2bp : s2.buildPoint = s0.nextId := by
    rw [hs2, emitQuads_buildPoint, hs1bp]
  have hs2mode : s2.generatingOpCodeForSpecConst = false := by
    rw [hs2, emitQuads_mode]
    exact hs1mode
  have hs2n : s2.nextId = s0.nextId + 2 + ops1.length := by
    rw [hs2, emitQuads_nextId, hs1n]
  have hs2fb : s2.functionBlocks = s0.functionBlocks ++ [s0.nextId] := by
    rw [hs2, emitQuads_functionBlocks, hs1fb]
  have hs2ids : SpirvBuilder.IdsBelow s2 := by
    rw [hs2]
    exact idsBelow_emitQuads ops1 p1.2 hs1ids
  have hbpT : p1.2.findBlock p1.2.buildPoint =
      some { id := s0.nextId, instructions := [], predecessors := [] } := by
    rw [hs1bp, hs1find, if_pos rfl]
  obtain ⟨extra1, hextra1, hextra1ops⟩ :=
    emitQuads_findBlock_bp ops1 p1.2
      { id := s0.nextId, instructions := [], predecessors := [] } hs1mode hbpT
  have hextra1nb : ∀ i ∈ extra1, i.opCode ≠ SpvOp.OpBranch := by
    intro i hi
    obtain ⟨cq, hcq, hop⟩ := hextra1ops i hi
    rw [hop]
    exact hops1 cq hcq
  have hs2T : s2.findBlock s0.nextId =
      some { id := s0.nextId, instructions := extra1, predecessors := [] } := by
    rw [hs2]
    rw [hs1bp] at hextra1
    simpa using hextra1
  have hs2H : s2.findBlock s0.buildPoint = some hdr := by
    rw [hs2, emitQuads_findBlock_ne ops1 p1.2 s0.buildPoint hs1mode
      (by rw [hs1bp]; omega), hs1find, if_neg (by omega), if_neg (by omega)]
    exact hhdr
  have hs2M : s2.findBlock (s0.nextId + 1) =
      some { id := s0.nextId + 1, instructions := [], predecessors := [] } := by
    rw [hs2, emitQuads_findBlock_ne ops1 p1.2 (s0.nextId + 1) hs1mode
      (by rw [hs1bp]; omega), hs1find, if_neg (by omega), if_pos rfl]
  -- begin else
  have hib2 : p2.1 = IfBuilder.mk cond ctrl tw ew s0.nextId
      (some s2.nextId) (s0.nextId + 1) s0.buildPoint s0.nextId s0.buildPoint
      Branch.kElse := by
    rw [hp2, IfBuilder.makeBeginElse_true_eq, hib1, hs2bp]
  have hmerge : p1.1.mergeBlock = s0.nextId + 1 := by rw [hib1]
  have hs3bp : p2.2.buildPoint = s2.nextId := by
    rw [hp2, IfBuilder.makeBeginElse_true_eq]
    rfl
  have hs3mode : p2.2.generatingOpCodeForSpecConst = false := by
    rw [hp2, IfBuilder.makeBeginElse_true_eq]
    exact hs2mode
  have hs3fb : p2.2.functionBlocks = s2.functionBlocks ++ [s2.nextId] := by
    rw [hp2, IfBuilder.makeBeginElse_true_eq]
    rfl
  have hs3ids : SpirvBuilder.IdsBelow p2.2 := by
    rw [hp2]
    exact IfBuilder.idsBelow_makeBeginElse_true_snd p1.1 hs2ids
  have hs3find : ∀ q : Nat, p2.2.findBlock q =
      if q = s2.nextId then
        some { id := s2.nextId, instructions := [], predecessors := [] }
      else (s2.createBranch (s0.nextId + 1)).findBlock q := by
    intro q
    rw [hp2, IfBuilder.findBlock_makeBeginElse_true_snd p1.1 hs2ids q, hmerge]
  -- the then-region's closing branch
  have hcb0 : s2.findBlock s2.buildPoint =
      some { id := s0.nextId, instructions := extra1, predecessors := [] } := by
    rw [hs2bp]
    exact hs2T
  have hcbT := SpirvBuilder.findBlock_createBranch_bp hcb0
    (show s2.buildPoint ≠ s0.nextId + 1 by rw [hs2bp]; omega)
  rw [hs2bp] at hcbT
  have hcbH : (s2.createBranch (s0.nextId + 1)).findBlock s0.buildPoint =
      some hdr :=
    (SpirvBuilder.findBlock_createBranch_other (by rw [hs2bp]; omega)
      (by omega)).trans hs2H
  have hcbM0 := SpirvBuilder.findBlock_createBranch_target hs2M
    (by rw [hs2bp]; omega)
  rw [hs2bp] at hcbM0
  have hs3T : p2.2.findBlock s0.nextId =
      some { id := s0.nextId,
             instructions := extra1 ++
               [SpirvBuilder.branchInstruction (s0.nextId + 1)],
             predecessors := [] } := by
    rw [hs3find, if_neg (by omega)]
    simpa using hcbT
  have hs3H : p2.2.findBlock s0.buildPoint = some hdr := by
    rw [hs3find, if_neg (by omega)]
    exact hcbH
  have hs3E : p2.2.findBlock s2.nextId =
      some { id := s2.nextId, instructions := [], predecessors := [] } := by
    rw [hs3find, if_pos rfl]
  -- else-region emission
  have hs4bp : s4.buildPoint = s2.nextId := by
    rw [hs4, emitQuads_buildPoint, hs3bp]
  have hs4mode : s4.generatingOpCodeForSpecConst = false := by
    rw [hs4, emitQuads_mode]
    exact hs3mode
  have hs4fb : s4.functionBlocks = s2.functionBlocks ++ [s2.nextId] := by
    rw [hs4, emitQuads_functionBlocks, hs3fb]
  have hbpE : p2.2.findBlock p2.2.buildPoint =
      some { id := s2.nextId, instructions := [], predecessors := [] } := by
    rw [hs3bp]
    exact hs3E
  obtain ⟨extra2, hextra2, hextra2ops⟩ :=
    emitQuads_findBlock_bp ops2 p2.2
      { id := s2.nextId, instructions := [], predecessors := [] } hs3mode hbpE
  have hextra2nb : ∀ i ∈ extra2, i.opCode ≠ SpvOp.OpBranch := by
    intro i hi
    obtain ⟨cq, hcq, hop⟩ := hextra2ops i hi
    rw [hop]
    exact hops2 cq hcq
  have hs4E : s4.findBlock s2.nextId =
      some { id := s2.nextId, instructions := extra2, predecessors := [] } := by
    rw [hs4]
    rw [hs3bp] at hextra2
    simpa using hextra2
  have hs4T : s4.findBlock s0.nextId =
      some { id := s0.nextId,
             instructions := extra1 ++
               [SpirvBuilder.branchInstruction (s0.nextId + 1)],
             predecessors := [] } := by
    rw [hs4, emitQuads_findBlock_ne ops2 p2.2 s0.nextId hs3mode
      (by rw [hs3bp]; omega)]
    exact hs3T
  have hs4H : s4.findBlock s0.buildPoint = some hdr := by
    rw [hs4, emitQuads_findBlock_ne ops2 p2.2 s0.buildPoint hs3mode
      (by rw [hs3bp]; omega)]
    exact hs3H
  -- close the construct
  have he2 : p2.1.elseBlock = some s2.nextId := by rw [hib2]
  have hTB : p2.1.thenBlock = s0.nextId := by rw [hib2]
  have hMB : p2.1.mergeBlock = s0.nextId + 1 := by rw [hib2]
  have hHB : p2.1.headerBlock = s0.buildPoint := by rw [hib2]
  have hCD : p2.1.condition = cond := by rw [hib2]
  have hCT : p2.1.control = ctrl := by rw [hib2]
  have hTW : p2.1.thenWeight = tw := by rw [hib2]
  have hEW : p2.1.elseWeight = ew := by rw [hib2]
  have hp3eq := IfBuilder.makeEndIf_true_some_eq p2.1 s2.nextId s4 he2
  rw [← hp3] at hp3eq
  have hf3T : p3.1.thenBlock = s0.nextId := by rw [hp3eq]; exact hTB
  have hf3M : p3.1.mergeBlock = s0.nextId + 1 := by rw [hp3eq]; exact hMB
  have hf3H : p3.1.headerBlock = s0.buildPoint := by rw [hp3eq]; exact hHB
  have hf3E : p3.1.elseBlock = some s2.nextId := by rw [hp3eq]; exact he2
  have hstate3 : p3.2 =
      (((((((s4.createBranch (s0.nextId + 1)).setBuildPoint
          s0.buildPoint).createSelectionMerge (s0.nextId + 1)
          ctrl).addInstructionTo s0.buildPoint
         (condBranchInstruction cond (s0.nextId) (s2.nextId) tw
           ew)).addPredecessor (s0.nextId)
        s0.buildPoint).addPredecessor (s2.nextId) s0.buildPoint).addBlock
        (s0.nextId + 1)).setBuildPoint (s0.nextId + 1) := by
    rw [hp3eq, hTB, hMB, hHB, hCD, hCT, hTW, hEW]
  refine ⟨s2.nextId, hf3E, ?_, ?_, ?_, ?_⟩
  · rw [hstate3, hf3T, hf3M, endIfChain_functionBlocks,
      SpirvBuilder.createBranch_functionBlocks, hs4fb, hs2fb]
    simp
  · -- then block
    have hc1T : (s4.createBranch (s0.nextId + 1)).findBlock s0.nextId =
        some { id := s0.nextId,
               instructions := extra1 ++
                 [SpirvBuilder.branchInstruction (s0.nextId + 1)],
               predecessors := [] } :=
      (SpirvBuilder.findBlock_createBranch_other (by rw [hs4bp]; omega)
        (by omega)).trans hs4T
    have hfT := endIfChain_findBlock_ne s0.buildPoint (s0.nextId + 1) ctrl
      (s0.nextId) (s2.nextId) (s0.nextId)
      (condBranchInstruction cond (s0.nextId) (s2.nextId) tw ew)
      hc1T (by omega)
    rw [if_pos rfl, if_neg (show ¬s0.nextId = s2.nextId by omega)] at hfT
    rw [hstate3, hf3T, hf3M, hf3H]
    refine ⟨_, hfT, ⟨?_, ?_⟩, ?_⟩
    · show ((extra1 ++ [SpirvBuilder.branchInstruction (s0.nextId + 1)]).filter
        fun i => i.opCode == SpvOp.OpBranch).length = 1
      rw [List.filter_append,
        List.filter_eq_nil_iff.2 (fun i hi => by simpa using hextra1nb i hi)]
      simp [SpirvBuilder.branchInstruction]
    · show (extra1 ++
          [SpirvBuilder.branchInstruction (s0.nextId + 1)]).getLast? =
        some (SpirvBuilder.branchInstruction (s0.nextId + 1))
      exact List.getLast?_concat _
    · show s0.buildPoint ∈ [] ++ ([s0.buildPoint] ++ [])
      simp
  · -- else block
    have hbpE4 : s4.findBlock s4.buildPoint =
        some { id := s2.nextId, instructions := extra2,
               predecessors := [] } := by
      rw [hs4bp]
      exact hs4E
    have hc1E := SpirvBuilder.findBlock_createBranch_bp hbpE4
      (show s4.buildPoint ≠ s0.nextId + 1 by rw [hs4bp]; omega)
    rw [hs4bp] at hc1E
    have hfE := endIfChain_findBlock_ne s0.buildPoint (s0.nextId + 1) ctrl
      (s0.nextId) (s2.nextId) (s2.nextId)
      (condBranchInstruction cond (s0.nextId) (s2.nextId) tw ew)
      hc1E (by omega)
    rw [if_neg (show ¬s2.nextId = s0.nextId by omega), if_pos rfl] at hfE
    rw [hstate3, hf3M, hf3H]
    refine ⟨_, hfE, ⟨?_, ?_⟩, ?_⟩
    · show ((extra2 ++ [SpirvBuilder.branchInstruction (s0.nextId + 1)]).filter
        fun i => i.opCode == SpvOp.OpBranch).length = 1
      rw [List.filter_append,
        List.filter_eq_nil_iff.2 (fun i hi => by simpa using hextra2nb i hi)]
      simp [SpirvBuilder.branchInstruction]
    · show (extra2 ++
          [SpirvBuilder.branchInstruction (s0.nextId + 1)]).getLast? =
        some (SpirvBuilder.branchInstruction (s0.nextId + 1))
      exact List.getLast?_concat _
    · show s0.buildPoint ∈ [] ++ ([] ++ [s0.buildPoint])
      simp
  · -- header block
    have hc1H : (s4.createBranch (s0.nextId + 1)).findBlock s0.buildPoint =
        some hdr :=
      (SpirvBuilder.findBlock_createBranch_other (by rw [hs4bp]; omega)
        (by omega)).trans hs4H
    obtain ⟨hblk, hbfind, hbinstr⟩ := endIfChain_findBlock_header
      (s0.nextId + 1) ctrl (s0.nextId) (s2.nextId)
      (condBranchInstruction cond (s0.nextId) (s2.nextId) tw ew) hc1H
    rw [hstate3, hf3T, hf3H]
    refine ⟨hblk, hbfind, ?_, ?_⟩
    · rw [hbinstr, show hdr.instructions ++
          [SpirvBuilder.selectionMergeInstruction (s0.nextId + 1) ctrl,
           condBranchInstruction cond (s0.nextId) (s2.nextId) tw ew] =
          (hdr.instructions ++
            [SpirvBuilder.selectionMergeInstruction (s0.nextId + 1) ctrl]) ++
          [condBranchInstruction cond (s0.nextId) (s2.nextId) tw ew] by simp,
        List.filter_append, List.filter_append,
        List.filter_eq_nil_iff.2 (fun i hi => by simpa using hnocb i hi)]
      simp [SpirvBuilder.selectionMergeInstruction, condBranchInstruction]
    · refine ⟨condBranchInstruction cond (s0.nextId) (s2.nextId) tw ew,
        ?_, rfl, condBranchInstruction_take3 _ _ _ _ _⟩
      rw [hbinstr]
      exact getLast?_append_pair _ _ _


theorem runIfOnly_spec (cond ctrl tw ew : Nat) (ops1 : List QuadCall)
    (s0 : SpirvBuilder) (hdr : Block)
    (hmode : s0.generatingOpCodeForSpecConst = false)
    (hids : SpirvBuilder.IdsBelow s0)
    (hhdr : s0.findBlock s0.buildPoint = some hdr)
    (hops1 : ∀ q ∈ ops1, q.op ≠ SpvOp.OpBranch)
    (hnocb : ∀ i ∈ hdr.instructions, i.opCode ≠ SpvOp.OpBranchConditional) :
    (runIfOnly cond ctrl tw ew ops1 s0).1.elseBlock = none ∧
    (runIfOnly cond ctrl tw ew ops1 s0).2.functionBlocks =
      s0.functionBlocks ++
        [(runIfOnly cond ctrl tw ew ops1 s0).1.thenBlock,
         (runIfOnly cond ctrl tw ew ops1 s0).1.mergeBlock] ∧
    (∃ tblk : Block,
      (runIfOnly cond ctrl tw ew ops1 s0).2.findBlock
        (runIfOnly cond ctrl tw ew ops1 s0).1.thenBlock = some tblk ∧
      EndsInSoleBranchTo tblk.instructions
        (runIfOnly cond ctrl tw ew ops1 s0).1.mergeBlock ∧
      (runIfOnly cond ctrl tw ew ops1 s0).1.headerBlock ∈
        tblk.predecessors) ∧
    (∃ mblk : Block,
      (runIfOnly cond ctrl tw ew ops1 s0).2.findBlock
        (runIfOnly cond ctrl tw ew ops1 s0).1.mergeBlock = some mblk ∧
      (runIfOnly cond ctrl tw ew ops1 s0).1.headerBlock ∈
        mblk.predecessors) ∧
    (∃ hblk : Block,
      (runIfOnly cond ctrl tw ew ops1 s0).2.findBlock
        (runIfOnly cond ctrl tw ew ops1 s0).1.headerBlock = some hblk ∧
      EndsInSoleCondBranch hblk.instructions cond
        (runIfOnly cond ctrl tw ew ops1 s0).1.thenBlock
        (runIfOnly cond ctrl tw ew ops1 s0).1.mergeBlock) := by
  unfold runIfOnly
  set p1 := IfBuilder.make cond ctrl tw ew s0 with hp1
  set s2 := emitQuads ops1 p1.2 with hs2
  set p3 := p1.1.makeEndIf true s2 with hp3
  have hdrid : hdr.id = s0.buildPoint := SpirvBuilder.findBlock_id hhdr
  have hHlt : s0.buildPoint < s0.nextId := by
    have h := hids hdr (SpirvBuilder.findBlock_mem hhdr)
    rw [hdrid] at h
    exact h
  have hib1 : p1.1 = IfBuilder.mk cond ctrl tw ew s0.nextId none
      (s0.nextId + 1) s0.buildPoint s0.buildPoint s0.buildPoint
      Branch.kThen := by
    rw [hp1, IfBuilder.make_eq]
  have hs1bp : p1.2.buildPoint = s0.nextId := by
    rw [hp1, IfBuilder.make_eq]
    rfl
  have hs1fb : p1.2.functionBlocks = s0.functionBlocks ++ [s0.nextId] := by
    rw [hp1, IfBuilder.make_eq]
    rfl
  have hs1mode : p1.2.generatingOpCodeForSpecConst = false := by
    rw [hp1, IfBuilder.make_eq]
    exact hmode
  have hs1ids : SpirvBuilder.IdsBelow p1.2 := by
    rw [hp1]
    exact IfBuilder.idsBelow_make_snd cond ctrl tw ew hids
  have hs1find : ∀ q : Nat, p1.2.findBlock q =
      if q = s0.nextId then
        some { id := s0.nextId, instructions := [], predecessors := [] }
      else if q = s0.nextId + 1 then
        some { id := s0.nextId + 1, instructions := [], predecessors := [] }
      else s0.findBlock q := by
    intro q
    rw [hp1]
    exact IfBuilder.findBlock_make_snd cond ctrl tw ew hids q
  have hs2bp : s2.buildPoint = s0.nextId := by
    rw [hs2, emitQuads_buildPoint, hs1bp]
  have hs2mode : s2.generatingOpCodeForSpecConst = false := by
    rw [hs2, emitQuads_mode]
    exact hs1mode
  have hs2fb : s2.functionBlocks = s0.functionBlocks ++ [s0.nextId] := by
    rw [hs2, emitQuads_functionBlocks, hs1fb]
  have hbpT : p1.2.findBlock p1.2.buildPoint =
      some { id := s0.nextId, instructions := [], predecessors := [] } := by
    rw [hs1bp, hs1find, if_pos rfl]
  obtain ⟨extra1, hextra1, hextra1ops⟩ :=
    emitQuads_findBlock_bp ops1 p1.2
      { id := s0.nextId, instructions := [], predecessors := [] } hs1mode hbpT
  have hextra1nb : ∀ i ∈ extra1, i.opCode ≠ SpvOp.OpBranch := by
    intro i hi
    obtain ⟨cq, hcq, hop⟩ := hextra1ops i hi
    rw [hop]
    exact hops1 cq hcq
  have hs2T : s2.findBlock s0.nextId =
      some { id := s0.nextId, instructions := extra1, predecessors := [] } := by
    rw [hs2]
    rw [hs1bp] at hextra1
    simpa using hextra1
  have hs2H : s2.findBlock s0.buildPoint = some hdr := by
    rw [hs2, emitQuads_findBlock_ne ops1 p1.2 s0.buildPoint hs1mode
      (by rw [hs1bp]; omega), hs1find, if_neg (by omega), if_neg (by omega)]
    exact hhdr
  have hs2M : s2.findBlock (s0.nextId + 1) =
      some { id := s0.nextId + 1, instructions := [], predecessors := [] } := by
    rw [hs2, emitQuads_findBlock_ne ops1 p1.2 (s0.nextId + 1) hs1mode
      (by rw [hs1bp]; omega), hs1find, if_neg (by omega), if_pos rfl]
  -- close the construct
  have he1 : p1.1.elseBlock = none := by rw [hib1]
  have hTB : p1.1.thenBlock = s0.nextId := by rw [hib1]
  have hMB : p1.1.mergeBlock = s0.nextId + 1 := by rw [hib1]
  have hHB : p1.1.headerBlock = s0.buildPoint := by rw [hib1]
  have hCD : p1.1.condition = cond := by rw [hib1]
  have hCT : p1.1.control = ctrl := by rw [hib1]
  have hTW : p1.1.thenWeight = tw := by rw [hib1]
  have hEW : p1.1.elseWeight = ew := by rw [hib1]
  have hp3eq := IfBuilder.makeEndIf_true_none_eq p1.1 s2 he1
  rw [← hp3] at hp3eq
  have hf3T : p3.1.thenBlock = s0.nextId := by rw [hp3eq]; exact hTB
  have hf3M : p3.1.mergeBlock = s0.nextId + 1 := by rw [hp3eq]; exact hMB
  have hf3H : p3.1.headerBlock = s0.buildPoint := by rw [hp3eq]; exact hHB
  have hf3E : p3.1.elseBlock = none := by rw [hp3eq]; exact he1
  have hstate3 : p3.2 =
      (((((((s2.createBranch (s0.nextId + 1)).setBuildPoint
          s0.buildPoint).createSelectionMerge (s0.nextId + 1)
          ctrl).addInstructionTo s0.buildPoint
         (condBranchInstruction cond (s0.nextId) (s0.nextId + 1) tw
           ew)).addPredecessor (s0.nextId)
        s0.buildPoint).addPredecessor (s0.nextId + 1) s0.buildPoint).addBlock
        (s0.nextId + 1)).setBuildPoint (s0.nextId + 1) := by
    rw [hp3eq, hTB, hMB, hHB, hCD, hCT, hTW, hEW]
  have hcb0 : s2.findBlock s2.buildPoint =
      some { id := s0.nextId, instructions := extra1, predecessors := [] } := by
    rw [hs2bp]
    exact hs2T
  have hcbT := SpirvBuilder.findBlock_createBranch_bp hcb0
    (show s2.buildPoint ≠ s0.nextId + 1 by rw [hs2bp]; omega)
  rw [hs2bp] at hcbT
  have hcbH : (s2.createBranch (s0.nextId + 1)).findBlock s0.buildPoint =
      some hdr :=
    (SpirvBuilder.findBlock_createBranch_other (by rw [hs2bp]; omega)
      (by omega)).trans hs2H
  have hcbM0 := SpirvBuilder.findBlock_createBranch_target hs2M
    (by rw [hs2bp]; omega)
  rw [hs2bp] at hcbM0
  refine ⟨hf3E, ?_, ?_, ?_, ?_⟩
  · rw [hstate3, hf3T, hf3M, endIfChain_functionBlocks,
      SpirvBuilder.createBranch_functionBlocks, hs2fb]
    simp
  · -- then block
    have hc1T : (s2.createBranch (s0.nextId + 1)).findBlock s0.nextId =
        some { id := s0.nextId,
               instructions := extra1 ++
                 [SpirvBuilder.branchInstruction (s0.nextId + 1)],
               predecessors := [] } := by
      simpa using hcbT
    have hfT := endIfChain_findBlock_ne s0.buildPoint (s0.nextId + 1) ctrl
      (s0.nextId) (s0.nextId + 1) (s0.nextId)
      (condBranchInstruction cond (s0.nextId) (s0.nextId + 1) tw ew)
      hc1T (by omega)
    rw [if_pos rfl, if_neg (show ¬s0.nextId = s0.nextId + 1 by omega)] at hfT
    rw [hstate3, hf3T, hf3M, hf3H]
    refine ⟨_, hfT, ⟨?_, ?_⟩, ?_⟩
    · show ((extra1 ++ [SpirvBuilder.branchInstruction (s0.nextId + 1)]).filter
        fun i => i.opCode == SpvOp.OpBranch).length = 1
      rw [List.filter_append,
        List.filter_eq_nil_iff.2 (fun i hi => by simpa using hextra1nb i hi)]
      simp [SpirvBuilder.branchInstruction]
    · show (extra1 ++
          [SpirvBuilder.branchInstruction (s0.nextId + 1)]).getLast? =
        some (SpirvBuilder.branchInstruction (s0.nextId + 1))
      exact List.getLast?_concat _
    · show s0.buildPoint ∈ [] ++ ([s0.buildPoint] ++ [])
      simp
  · -- merge block
    have hc1M : (s2.createBranch (s0.nextId + 1)).findBlock (s0.nextId + 1) =
        some { id := s0.nextId + 1, instructions := [],
               predecessors := [s0.nextId] } := by
      simpa using hcbM0
    have hfM := endIfChain_findBlock_ne s0.buildPoint (s0.nextId + 1) ctrl
      (s0.nextId) (s0.nextId + 1) (s0.nextId + 1)
      (condBranchInstruction cond (s0.nextId) (s0.nextId + 1) tw ew)
      hc1M (by omega)
    rw [if_neg (show ¬s0.nextId + 1 = s0.nextId by omega), if_pos rfl] at hfM
    rw [hstate3, hf3M, hf3H]
    refine ⟨_, hfM, ?_⟩
    show s0.buildPoint ∈ [s0.nextId] ++ ([] ++ [s0.buildPoint])
    simp
  · -- header block
    obtain ⟨hblk, hbfind, hbinstr⟩ := endIfChain_findBlock_header
      (s0.nextId + 1) ctrl (s0.nextId) (s0.nextId + 1)
      (condBranchInstruction cond (s0.nextId) (s0.nextId + 1) tw ew) hcbH
    rw [hstate3, hf3T, hf3M, hf3H]
    refine ⟨hblk, hbfind, ?_, ?_⟩
    · rw [hbinstr, show hdr.instructions ++
          [SpirvBuilder.selectionMergeInstruction (s0.nextId + 1) ctrl,
           condBranchInstruction cond (s0.nextId) (s0.nextId + 1) tw ew] =
          (hdr.instructions ++
            [SpirvBuilder.selectionMergeInstruction (s0.nextId + 1) ctrl]) ++
          [condBranchInstruction cond (s0.nextId) (s0.nextId + 1) tw ew] by simp,
        List.filter_append, List.filter_append,
        List.filter_eq_nil_iff.2 (fun i hi => by simpa using hnocb i hi)]
      simp [SpirvBuilder.selectionMergeInstruction, condBranchInstruction]
    · refine ⟨condBranchInstruction cond (s0.nextId) (s0.nextId + 1) tw ew,
        ?_, rfl, condBranchInstruction_take3 _ _ _ _ _⟩
      rw [hbinstr]
      exact getLast?_append_pair _ _ _


/-- C1: a structured-if driven construction → (optional `makeBeginElse`) →
`makeEndIf` with `branchToMerge = true` at each transition, with branch-free
straight-line emission inside each region, yields: the function's block
order ends with then-block, else-block (when begun), merge-block; the
then-block and else-block each end in exactly one unconditional branch to
the merge block; the header block ends in exactly one conditional branch on
the condition whose true-target is the then block and whose false-target is
the else block when present, else the merge block; and both branch targets
have the header registered as a predecessor. -/
theorem ifBuilder_structured_shape (cond ctrl tw ew : Nat)
    (ops1 ops2 : List QuadCall) (s0 : SpirvBuilder) (hdr : Block)
    (hmode : s0.generatingOpCodeForSpecConst = false)
    (hids : SpirvBuilder.IdsBelow s0)
    (hhdr : s0.findBlock s0.buildPoint = some hdr)
    (hops1 : ∀ q ∈ ops1, q.op ≠ SpvOp.OpBranch)
    (hops2 : ∀ q ∈ ops2, q.op ≠ SpvOp.OpBranch)
    (hnocb : ∀ i ∈ hdr.instructions, i.opCode ≠ SpvOp.OpBranchConditional) :
    (∃ e : Nat,
      (runIfElse cond ctrl tw ew ops1 ops2 s0).1.elseBlock = some e ∧
      (runIfElse cond ctrl tw ew ops1 ops2 s0).2.functionBlocks =
        s0.functionBlocks ++
          [(runIfElse cond ctrl tw ew ops1 ops2 s0).1.thenBlock, e,
           (runIfElse cond ctrl tw ew ops1 ops2 s0).1.mergeBlock] ∧
      (∃ tblk : Block,
        (runIfElse cond ctrl tw ew ops1 ops2 s0).2.findBlock
          (runIfElse cond ctrl tw ew ops1 ops2 s0).1.thenBlock = some tblk ∧
        EndsInSoleBranchTo tblk.instructions
          (runIfElse cond ctrl tw ew ops1 ops2 s0).1.mergeBlock ∧
        (runIfElse cond ctrl tw ew ops1 ops2 s0).1.headerBlock ∈
          tblk.predecessors) ∧
      (∃ eblk : Block,
        (runIfElse cond ctrl tw ew ops1 ops2 s0).2.findBlock e = some eblk ∧
        EndsInSoleBranchTo eblk.instructions
          (runIfElse cond ctrl tw ew ops1 ops2 s0).1.mergeBlock ∧
        (runIfElse cond ctrl tw ew ops1 ops2 s0).1.headerBlock ∈
          eblk.predecessors) ∧
      (∃ hblk : Block,
        (runIfElse cond ctrl tw ew ops1 ops2 s0).2.findBlock
          (runIfElse cond ctrl tw ew ops1 ops2 s0).1.headerBlock = some hblk ∧
        EndsInSoleCondBranch hblk.instructions cond
          (runIfElse cond ctrl tw ew ops1 ops2 s0).1.thenBlock e)) ∧
    ((runIfOnly cond ctrl tw ew ops1 s0).1.elseBlock = none ∧
     (runIfOnly cond ctrl tw ew ops1 s0).2.functionBlocks =
       s0.functionBlocks ++
         [(runIfOnly cond ctrl tw ew ops1 s0).1.thenBlock,
          (runIfOnly cond ctrl tw ew ops1 s0).1.mergeBlock] ∧
     (∃ tblk : Block,
       (runIfOnly cond ctrl tw ew ops1 s0).2.findBlock
         (runIfOnly cond ctrl tw ew ops1 s0).1.thenBlock = some tblk ∧
       EndsInSoleBranchTo tblk.instructions
         (runIfOnly cond ctrl tw ew ops1 s0).1.mergeBlock ∧
       (runIfOnly cond ctrl tw ew ops1 s0).1.headerBlock ∈
         tblk.predecessors) ∧
     (∃ mblk : Block,
       (runIfOnly cond ctrl tw ew ops1 s0).2.findBlock
         (runIfOnly cond ctrl tw ew ops1 s0).1.mergeBlock = some mblk ∧
       (runIfOnly cond ctrl tw ew ops1 s0).1.headerBlock ∈
         mblk.predecessors) ∧
     (∃ hblk : Block,
       (runIfOnly cond ctrl tw ew ops1 s0).2.findBlock
         (runIfOnly cond ctrl tw ew ops1 s0).1.headerBlock = some hblk ∧
       EndsInSoleCondBranch hblk.instructions cond
         (runIfOnly cond ctrl tw ew ops1 s0).1.thenBlock
         (runIfOnly cond ctrl tw ew ops1 s0).1.mergeBlock)) :=
  ⟨runIfElse_spec cond ctrl tw ew ops1 ops2 s0 hdr hmode hids hhdr hops1
     hops2 hnocb,
   runIfOnly_spec cond ctrl tw ew ops1 s0 hdr hmode hids hhdr hops1 hnocb⟩

/-- Witness for C1: driving the concrete one-op then-region construct with
no else from `sampleOff`, the function block order ends
`[then_block, merge_block]`. -/
theorem ifBuilder_structured_shape_witness :
    (runIfOnly 9 0 0 0 [QuadCall.mk (SpvOp.otherOp 3) 7 1 1 1 1]
        sampleOff).2.functionBlocks =
      sampleOff.functionBlocks ++
        [(runIfOnly 9 0 0 0 [QuadCall.mk (SpvOp.otherOp 3) 7 1 1 1 1]
            sampleOff).1.thenBlock,
         (runIfOnly 9 0 0 0 [QuadCall.mk (SpvOp.otherOp 3) 7 1 1 1 1]
            sampleOff).1.mergeBlock] :=
  (ifBuilder_structured_shape 9 0 0 0 [QuadCall.mk (SpvOp.otherOp 3) 7 1 1 1 1]
    [] sampleOff { id := 1, instructions := [], predecessors := [] }
    rfl (show ∀ blk ∈ sampleOff.blocks, blk.id < sampleOff.nextId by decide)
    (by decide) (by decide) (by decide) (by decide)).2.2.1

end XeniaSpirv
